import Mathlib

/-!
Verification of the fdk-mqa-scoring-service scoring pipeline.

The definitions below are a shallow embedding of the Rust sources:
`src/score.rs`, `src/score_graph.rs`, `src/assessment_graph.rs`,
`src/measurement_value.rs`, `src/json_conversion.rs` and `src/kafka.rs`.
RDF stores are modelled as lists of triples in store-iteration order,
`u64` values as `Nat`, `i64` values as `Int`, and fallible Rust functions
as `Except String`.
-/

/-! ### Vocabulary IRIs (src/vocab.rs and literal IRIs used by the sources) -/

def rdfTypeIri : String := "http://www.w3.org/1999/02/22-rdf-syntax-ns#type"

def datasetAssessmentClassIri : String :=
  "https://data.norge.no/vocabulary/dcatno-mqa#DatasetAssessment"

def distributionAssessmentClassIri : String :=
  "https://data.norge.no/vocabulary/dcatno-mqa#DistributionAssessment"

def assessmentOfIri : String := "https://data.norge.no/vocabulary/dcatno-mqa#assessmentOf"

def containsQualityMeasurementIri : String :=
  "https://data.norge.no/vocabulary/dcatno-mqa#containsQualityMeasurement"

def isMeasurementOfIri : String := "http://www.w3.org/ns/dqv#isMeasurementOf"

def dqvValueIri : String := "http://www.w3.org/ns/dqv#value"

def dqvDimensionClassIri : String := "http://www.w3.org/ns/dqv#Dimension"

def dqvMetricClassIri : String := "http://www.w3.org/ns/dqv#Metric"

def dqvInDimensionIri : String := "http://www.w3.org/ns/dqv#inDimension"

def trueScoreIri : String := "https://data.norge.no/vocabulary/dcatno-mqa#trueScore"

def dctModifiedIri : String := "http://purl.org/dc/terms/modified"

def xsdStringIri : String := "http://www.w3.org/2001/XMLSchema#string"

def xsdBooleanIri : String := "http://www.w3.org/2001/XMLSchema#boolean"

def xsdIntegerIri : String := "http://www.w3.org/2001/XMLSchema#integer"

def xsdDateTimeIri : String := "http://www.w3.org/2001/XMLSchema#dateTime"

def accessUrlStatusCodeIri : String :=
  "https://data.norge.no/vocabulary/dcatno-mqa#accessUrlStatusCode"

def downloadUrlStatusCodeIri : String :=
  "https://data.norge.no/vocabulary/dcatno-mqa#downloadUrlStatusCode"

/-! ### Rust integer literal parsing (`str::parse::<u64>` / `str::parse::<i64>`) -/

/-- Value of a nonempty all-digit character list, most significant digit first. -/
def digitsValue (cs : List Char) : Option Nat :=
  if cs ≠ [] ∧ cs.all Char.isDigit then
    some (cs.foldl (fun a c => a * 10 + (c.toNat - 48)) 0)
  else none

/-- Rust `str::parse::<u64>`: optional leading plus sign, digits, range check. -/
def rustParseU64 (s : String) : Option Nat :=
  let cs := match s.toList with
    | '+' :: rest => rest
    | cs => cs
  match digitsValue cs with
  | some v => if v < 2 ^ 64 then some v else none
  | none => none

/-- Rust `str::parse::<i64>`: optional sign, digits, range check. -/
def rustParseI64 (s : String) : Option Int :=
  match s.toList with
  | '-' :: rest =>
    match digitsValue rest with
    | some v => if v ≤ 2 ^ 63 then some (-(v : Int)) else none
    | none => none
  | '+' :: rest =>
    match digitsValue rest with
    | some v => if v < 2 ^ 63 then some (v : Int) else none
    | none => none
  | cs =>
    match digitsValue cs with
    | some v => if v < 2 ^ 63 then some (v : Int) else none
    | none => none

/-! ### `src/measurement_value.rs` -/

/-- `MeasurementValue` (src/measurement_value.rs). -/
inductive MeasurementValue where
  | bool (b : Bool)
  | int (i : Int)
  | str (s : String)
  | unknown (s : String)
deriving DecidableEq, Repr

/-- `TryFrom<Literal> for MeasurementValue` (src/measurement_value.rs): parse a
quality-measurement value from a literal, dispatching on the declared datatype. -/
def MeasurementValue.tryFrom (value datatype : String) : Except String MeasurementValue :=
  if datatype = xsdStringIri then .ok (.str value)
  else if datatype = xsdBooleanIri then .ok (.bool (value == "true"))
  else if datatype = xsdIntegerIri then
    match rustParseI64 value with
    | some i => .ok (.int i)
    | none => .error ("unable to parse quality measurement int: " ++ value)
  else .ok (.unknown value)

/-! ### `src/score_graph.rs` data model -/

/-- `ScoreMetric` (src/score_graph.rs): a catalog metric with its maximum score. -/
structure ScoreMetric where
  name : String
  score : Nat
deriving DecidableEq, Repr

/-- `ScoreDimension` (src/score_graph.rs). -/
structure ScoreDimension where
  name : String
  metrics : List ScoreMetric
  total_score : Nat
deriving DecidableEq, Repr

/-- `ScoreDefinitions` (src/score_graph.rs). -/
structure ScoreDefinitions where
  dimensions : List ScoreDimension
  total_score : Nat
deriving DecidableEq, Repr

/-- `ScoreMetric::score` (src/score_graph.rs lines 120-144): score a measurement
value against this metric. Status-code metrics require an integer value and
award the maximum iff the value is in [200, 300); all other metrics require a
boolean and award the maximum iff it is true. -/
def ScoreMetric.scoreOf (m : ScoreMetric) (value : MeasurementValue) : Except String Nat := do
  let ok ←
    if m.name = accessUrlStatusCodeIri ∨ m.name = downloadUrlStatusCodeIri then
      match value with
      | .int code => Except.ok (200 ≤ code ∧ code < 300 : Bool)
      | _ => Except.error ("measurement must be of type int: " ++ m.name)
    else
      match value with
      | .bool b => Except.ok b
      | _ => Except.error ("measurement must be of type bool: " ++ m.name)
  pure (if ok then m.score else 0)

/-! ### `src/score.rs` data model and scoring -/

/-- `MetricScore` (src/score.rs). -/
structure MetricScore where
  id : String
  score : Option Nat
deriving DecidableEq, Repr

/-- `DimensionScore` (src/score.rs). -/
structure DimensionScore where
  id : String
  metrics : List MetricScore
  score : Nat
deriving DecidableEq, Repr

/-- `Score` (src/score.rs). -/
structure Score where
  assessment : String
  resource : String
  dimensions : List DimensionScore
  score : Nat
deriving DecidableEq, Repr

/-- `sum_dimensions` (src/score.rs). -/
def sumDimensions (dimensions : List DimensionScore) : Nat :=
  (dimensions.map (fun d => d.score)).sum

/-- `sum_metrics` (src/score.rs): absent metric scores count as 0. -/
def sumMetrics (metrics : List MetricScore) : Nat :=
  (metrics.map (fun m => m.score.getD 0)).sum

/-- Rust `Option::max` on `Option<u64>`: `None` is smaller than any `Some`. -/
def optionMax (a b : Option Nat) : Option Nat :=
  match a, b with
  | none, b => b
  | some x, none => some x
  | some x, some y => some (max x y)

/-- `merge_dimension_scores` (src/score.rs lines 106-132): merge two node scores
by taking the max value of each metric; both inputs must have equal
dimension/metric order. -/
def mergeDimensionScores (dimensions : List DimensionScore) (other : List DimensionScore) :
    List DimensionScore :=
  (dimensions.zip other).map fun p =>
    let metrics := (p.1.metrics.zip p.2.metrics).map fun q =>
      MetricScore.mk q.1.id (optionMax q.1.score q.2.score)
    DimensionScore.mk p.1.id metrics (sumMetrics metrics)

/-- One fold step of `Iterator::max_by_key`: keep the new element when its key
is at least the current maximum (so of several maxima the last is returned). -/
def bestStep (acc : Option Score) (s : Score) : Option Score :=
  match acc with
  | none => some s
  | some b => if b.score ≤ s.score then some s else some b

/-- `best_score` (src/score.rs lines 135-137): `Iterator::max_by_key` on the
total score. -/
def bestScore (scores : List Score) : Option Score :=
  scores.foldl bestStep none

/-- The measurements map built by `AssessmentGraph::quality_measurements`:
association list from (assessment node IRI, metric IRI) to value. -/
abbrev Measurements := List ((String × String) × MeasurementValue)

/-- `HashMap::get` on the collected measurements map; on duplicate keys the
last inserted entry wins, as with `collect` into a `HashMap`. -/
def lookupMeasurement (m : Measurements) (k : String × String) : Option MeasurementValue :=
  ((List.reverse m).find? (fun e => e.1 = k)).map (fun e => e.2)

/-- `node_dimension_scores` (src/score.rs lines 140-168): score all metrics of all
catalog dimensions for one assessment node. -/
def nodeDimensionScores (defs : ScoreDefinitions) (graphMeasurements : Measurements)
    (node : String) : Except String (List DimensionScore) :=
  defs.dimensions.mapM fun sd => do
    let metrics ← sd.metrics.mapM fun metric => do
      match lookupMeasurement graphMeasurements (node, metric.name) with
      | some val => do
        let s ← metric.scoreOf val
        pure (MetricScore.mk metric.name (some s))
      | none => pure (MetricScore.mk metric.name none)
    pure (DimensionScore.mk sd.name metrics (sumMetrics metrics))

/-! ### RDF graph model

The oxigraph `Store` restricted to the default graph is modelled as a list of
triples in store-iteration order. The store is a set of quads; inserting an
already-present quad leaves it unchanged. Predicates are always IRIs. -/

/-- An RDF term: named node, blank node, or literal with datatype. -/
inductive Term where
  | iri (s : String)
  | blank (n : Nat)
  | lit (value : String) (datatype : String)
deriving DecidableEq, Repr

/-- One triple of the default graph. -/
structure Triple where
  subj : Term
  pred : String
  obj : Term
deriving DecidableEq, Repr

/-- The quad store content, in iteration order. -/
abbrev RdfGraph := List Triple

/-- `Store::insert`: set semantics; a new quad is appended to the iteration. -/
def insertTriple (g : RdfGraph) (t : Triple) : RdfGraph :=
  if t ∈ g then g else g ++ [t]

/-- `named_quad_subject` (src/helpers.rs). -/
def namedQuadSubject (t : Triple) : Except String String :=
  match t.subj with
  | .iri s => .ok s
  | _ => .error "unable to get named quad subject"

/-- `named_quad_object` (src/helpers.rs). -/
def namedQuadObject (t : Triple) : Except String String :=
  match t.obj with
  | .iri s => .ok s
  | _ => .error "unable to get named quad object"

/-- `quads_for_pattern(None, rdf::TYPE, class, None)` in iteration order. -/
def typeQuads (g : RdfGraph) (cls : String) : List Triple :=
  g.filter (fun t => t.pred == rdfTypeIri && t.obj == Term.iri cls)

/-- `AssessmentNode` (src/assessment_graph.rs). -/
structure AssessmentNode where
  assessment : String
  resource : String
deriving DecidableEq, Repr

/-- `AssessmentGraph::assessment_resource` (src/assessment_graph.rs): the object
of the first `assessmentOf` triple of the given assessment. -/
def AssessmentGraph.assessmentResource (g : RdfGraph) (assessment : String) :
    Except String String :=
  match (g.filter (fun t =>
      t.subj == Term.iri assessment && t.pred == assessmentOfIri)).head? with
  | none => .error ("assessment graph has no resource that the node is assessment of: "
      ++ assessment)
  | some t => namedQuadObject t

/-- `AssessmentGraph::dataset` (src/assessment_graph.rs): the first
`DatasetAssessment`-typed subject and its assessed resource. -/
def AssessmentGraph.dataset (g : RdfGraph) : Except String AssessmentNode := do
  match (typeQuads g datasetAssessmentClassIri).head? with
  | none => .error "assessment graph has no dataset assessments"
  | some t => do
    let assessment ← namedQuadSubject t
    let resource ← AssessmentGraph.assessmentResource g assessment
    pure (AssessmentNode.mk assessment resource)

/-- The per-assessment step of `AssessmentGraph::distributions`: pair an
assessment IRI with its assessed resource. -/
def AssessmentGraph.nodeOf (g : RdfGraph) (assessment : String) :
    Except String AssessmentNode :=
  match AssessmentGraph.assessmentResource g assessment with
  | .error e => .error e
  | .ok resource => .ok (AssessmentNode.mk assessment resource)

/-- `AssessmentGraph::distributions` (src/assessment_graph.rs lines 91-113): all
`DistributionAssessment`-typed subjects, in store-iteration order, paired with
their assessed resources. No sorting is applied. -/
def AssessmentGraph.distributions (g : RdfGraph) : Except String (List AssessmentNode) := do
  let assessments ← (typeQuads g distributionAssessmentClassIri).mapM namedQuadSubject
  assessments.mapM (AssessmentGraph.nodeOf g)

/-- Solution rows of the `quality_measurements` SPARQL query: for each
`?node containsQualityMeasurement ?measurement`, `?measurement isMeasurementOf
?metric`, `?measurement value ?value` join, the terms (?node, ?metric, ?value). -/
def qualityMeasurementRows (g : RdfGraph) : List (Term × Term × Term) :=
  (g.filter (fun t1 => t1.pred == containsQualityMeasurementIri)).flatMap fun t1 =>
    (g.filter (fun t2 => t2.subj == t1.obj && t2.pred == isMeasurementOfIri)).flatMap fun t2 =>
      (g.filter (fun t3 => t3.subj == t1.obj && t3.pred == dqvValueIri)).map fun t3 =>
        (t1.subj, t2.obj, t3.obj)

/-- The per-row step of `quality_measurements`: the node and metric must be
named nodes and the value a parseable literal. -/
def measurementOfRow (r : Term × Term × Term) :
    Except String ((String × String) × MeasurementValue) :=
  match r.1 with
  | .iri node =>
    match r.2.1 with
    | .iri metric =>
      match r.2.2 with
      | .lit v dt =>
        match MeasurementValue.tryFrom v dt with
        | .ok value => .ok ((node, metric), value)
        | .error e => .error e
      | _ => .error "unable to get quality measurement value"
    | _ => .error "unable to get quality measurement metric"
  | _ => .error "unable to get quality measurement node"

/-- `AssessmentGraph::quality_measurements` (src/assessment_graph.rs lines
115-150): map each query row to ((node, metric), parsed value). -/
def AssessmentGraph.qualityMeasurements (g : RdfGraph) : Except String Measurements :=
  (qualityMeasurementRows g).mapM measurementOfRow

/-- The per-distribution step of `calculate_score`: the unmerged node score of
one distribution assessment. -/
def distributionScoreOf (defs : ScoreDefinitions) (graphMeasurements : Measurements)
    (dist : AssessmentNode) : Except String Score :=
  match nodeDimensionScores defs graphMeasurements dist.assessment with
  | .error e => .error e
  | .ok dims => .ok (Score.mk dist.assessment dist.resource dims (sumDimensions dims))

/-- `calculate_score` (src/score.rs lines 44-104). -/
def calculateScore (g : RdfGraph) (defs : ScoreDefinitions) :
    Except String (Score × List Score) :=
  match AssessmentGraph.qualityMeasurements g with
  | .error e => .error e
  | .ok graphMeasurements =>
  match AssessmentGraph.dataset g with
  | .error e => .error e
  | .ok dataset =>
  match nodeDimensionScores defs graphMeasurements dataset.assessment with
  | .error e => .error e
  | .ok datasetDimensions =>
  match AssessmentGraph.distributions g with
  | .error e => .error e
  | .ok distributions =>
  match distributions.mapM (distributionScoreOf defs graphMeasurements) with
  | .error e => .error e
  | .ok distributionScores =>
    match bestScore (distributionScores.map fun s =>
      Score.mk s.assessment s.resource (mergeDimensionScores s.dimensions datasetDimensions)
        (sumDimensions (mergeDimensionScores s.dimensions datasetDimensions))) with
    | some best =>
      .ok (Score.mk dataset.assessment dataset.resource best.dimensions best.score,
        distributionScores)
    | none =>
      .ok (Score.mk dataset.assessment dataset.resource datasetDimensions
        (sumDimensions datasetDimensions), distributionScores)

/-! ### `src/score_graph.rs` catalog queries -/

/-- SPARQL `ORDER BY` key of a term: blank nodes order before IRIs; for the
catalog queries only IRIs reach a successful result. -/
def termSortKey : Term → String
  | .blank _ => ""
  | .iri s => s
  | .lit v _ => v

/-- Ordering of catalog metric query rows by the `?metric` term. -/
def metricRowLe (a b : Term × Term) : Prop := termSortKey a.1 ≤ termSortKey b.1

instance : DecidableRel metricRowLe := fun a b =>
  inferInstanceAs (Decidable (termSortKey a.1 ≤ termSortKey b.1))

instance : IsTotal (Term × Term) metricRowLe := ⟨fun a b => le_total _ _⟩

instance : IsTrans (Term × Term) metricRowLe := ⟨fun _ _ _ h1 h2 => le_trans h1 h2⟩

/-- `ScoreGraph::dimensions` (src/score_graph.rs lines 66-80): all
`dqv:Dimension`-typed named subjects, sorted ascending. -/
def ScoreGraph.dimensions (g : RdfGraph) : Except String (List String) := do
  let ds ← (typeQuads g dqvDimensionClassIri).mapM namedQuadSubject
  pure (ds.insertionSort (fun a b => a ≤ b))

/-- Solution rows of the metrics SPARQL query for one dimension:
(?metric, ?score) for each `?metric a dqv:Metric`, `?metric inDimension <d>`,
`?metric trueScore ?score` join. -/
def metricRows (g : RdfGraph) (dimension : String) : List (Term × Term) :=
  (typeQuads g dqvMetricClassIri).flatMap fun t1 =>
    (g.filter (fun t2 => t2.subj == t1.subj && t2.pred == dqvInDimensionIri &&
        t2.obj == Term.iri dimension)).flatMap fun _ =>
      (g.filter (fun t3 => t3.subj == t1.subj && t3.pred == trueScoreIri)).map fun t3 =>
        (t1.subj, t3.obj)

/-- The per-row step of `ScoreGraph::metrics`: the `?metric` term must be a
named node and the `?score` term a `u64`-parseable literal. -/
def metricOfRow (row : Term × Term) : Except String ScoreMetric :=
  match row.1 with
  | .iri s =>
    match row.2 with
    | .lit v _ =>
      match rustParseU64 v with
      | some n => .ok (ScoreMetric.mk s n)
      | none => .error ("unable to parse metric score from score graph: " ++ v)
    | _ => .error "unable to read metric score from score graph"
  | _ => .error "unable to read metric from score graph"

/-- `ScoreGraph::metrics` (src/score_graph.rs lines 83-117): query rows ordered
by the metric term (`ORDER BY ?metric`), each mapped to a named metric and a
`u64`-parsed score literal. -/
def ScoreGraph.metrics (g : RdfGraph) (dimension : String) :
    Except String (List ScoreMetric) :=
  ((metricRows g dimension).insertionSort metricRowLe).mapM metricOfRow

/-- `ScoreGraph::scores` (src/score_graph.rs lines 43-64): assemble the score
definitions with per-dimension and overall totals. -/
def ScoreGraph.scores (g : RdfGraph) : Except String ScoreDefinitions := do
  let names ← ScoreGraph.dimensions g
  let dimensions ← names.mapM fun name => do
    let metrics ← ScoreGraph.metrics g name
    pure (ScoreDimension.mk name metrics ((metrics.map (fun m => m.score)).sum))
  pure (ScoreDefinitions.mk dimensions ((dimensions.map (fun d => d.total_score)).sum))

/-! ### `src/json_conversion.rs` -/

/-- `MetricScore` (src/json_conversion.rs). -/
structure JsonMetricScore where
  metric : String
  score : Nat
  is_scored : Bool
  max_score : Nat
deriving DecidableEq, Repr

/-- `DimensionScore` (src/json_conversion.rs). -/
structure JsonDimensionScore where
  name : String
  metrics : List JsonMetricScore
  score : Nat
  max_score : Nat
deriving DecidableEq, Repr

/-- `Score` (src/json_conversion.rs). -/
structure JsonScore where
  name : String
  dimensions : List JsonDimensionScore
  score : Nat
  max_score : Nat
deriving DecidableEq, Repr

/-- `Score::new` (src/json_conversion.rs lines 56-65): totals are the sums of the
dimension scores and dimension max scores. -/
def JsonScore.new (name : String) (dimensions : List JsonDimensionScore) : JsonScore :=
  JsonScore.mk name dimensions ((dimensions.map (fun d => d.score)).sum)
    ((dimensions.map (fun d => d.max_score)).sum)

/-- One solution row of the `node_score` SPARQL query (src/json_conversion.rs):
the query joins, for every quality measurement of the node, the metric, its
catalog dimension, its catalog `trueScore` (`max_score`), and the optional
`score` literal; the literals are parsed as `u64`. Only metrics with a
measurement on the node produce a row. -/
structure SolutionRow where
  dimension : String
  metric : String
  score : Option Nat
  max_score : Nat
deriving DecidableEq, Repr

/-- Insert at an index: `Vec::insert`. -/
def insertAt (n : Nat) (a : JsonMetricScore) (l : List JsonMetricScore) :
    List JsonMetricScore :=
  l.take n ++ [a] ++ l.drop n

/-- One iteration of the `node_score` grouping loop (src/json_conversion.rs lines
197-224): update the last dimension if the row belongs to it (inserting the
metric at its `binary_search` lower-bound position), otherwise push a new
dimension. -/
def nodeScoreStep (dims : List JsonDimensionScore) (row : SolutionRow) :
    List JsonDimensionScore :=
  let metricScore := JsonMetricScore.mk row.metric (row.score.getD 0) row.score.isSome
    row.max_score
  match dims.getLast? with
  | some last =>
    if last.name = row.dimension then
      let idx := last.metrics.countP (fun m => m.metric < row.metric)
      let updated := JsonDimensionScore.mk last.name (insertAt idx metricScore last.metrics)
        (last.score + row.score.getD 0) (last.max_score + row.max_score)
      dims.dropLast ++ [updated]
    else
      dims ++ [JsonDimensionScore.mk row.dimension [metricScore] (row.score.getD 0)
        row.max_score]
  | none =>
    dims ++ [JsonDimensionScore.mk row.dimension [metricScore] (row.score.getD 0)
      row.max_score]

/-- `ScoreGraph::node_score` (src/json_conversion.rs lines 146-229): fold the
query rows (ordered by dimension) into grouped dimension scores. -/
def nodeScore (rows : List SolutionRow) : List JsonDimensionScore :=
  rows.foldl nodeScoreStep []

/-! ### `src/kafka.rs` event handling -/

/-- `MqaEventType` (src/schemas.rs). -/
inductive MqaEventType where
  | propertiesChecked
  | urlsChecked
  | dcatComplienceChecked
  | unknown
deriving DecidableEq, Repr

/-- `MqaEvent` (src/schemas.rs). -/
structure MqaEvent where
  event_type : MqaEventType
  fdk_id : String
  graph : String
  timestamp : Int
deriving DecidableEq, Repr

/-- Outcome of `get_graph` (src/kafka.rs lines 298-317): 404 yields no prior
assessment, 200 yields the Turtle body, any other status is an error. -/
inductive GetGraphResult where
  | notFound
  | okBody (turtle : String)
  | invalidStatus (status : Nat)
deriving DecidableEq, Repr

/-- HTTP requests the event handler sends to the scoring API. -/
inductive ApiAction where
  | getAssessment
  | postAssessment
deriving DecidableEq, Repr

/-- Environment of one `handle_mqa_event` run: the outcomes of UUID parsing, the
HTTP GET, the graph operations, scoring, serialisation and the POST. -/
structure HandlerEnv where
  parseUuid : String → Bool
  getGraph : GetGraphResult
  loadPrior : String → Except String Unit
  getModified : Option Int
  loadEvent : String → Except String Unit
  insertModified : Int → Except String Unit
  calcScore : Except String (Score × List Score)
  insertScoresDataset : Except String Unit
  insertScoresDistributions : Except String Unit
  toTurtle : Except String String
  turtleToJsonld : String → Except String String
  postResult : Except String Unit

/-- The scoring tail of `handle_mqa_event` (src/kafka.rs lines 269-292): load the
event graph, set the modified timestamp, score, serialise and POST. Every step
before the POST can fail without any POST being made. -/
def continueScoring (env : HandlerEnv) (event : MqaEvent) (pre : List ApiAction) :
    Except String Unit × List ApiAction :=
  match env.loadEvent event.graph with
  | .error e => (.error e, pre)
  | .ok _ =>
  match env.insertModified event.timestamp with
  | .error e => (.error e, pre)
  | .ok _ =>
  match env.calcScore with
  | .error e => (.error e, pre)
  | .ok _ =>
  match env.insertScoresDataset with
  | .error e => (.error e, pre)
  | .ok _ =>
  match env.insertScoresDistributions with
  | .error e => (.error e, pre)
  | .ok _ =>
  match env.toTurtle with
  | .error e => (.error e, pre)
  | .ok turtle =>
  match env.turtleToJsonld turtle with
  | .error e => (.error e, pre)
  | .ok _ => (env.postResult, pre ++ [ApiAction.postAssessment])

/-- `handle_mqa_event` (src/kafka.rs lines 217-296): parse the FDK id, GET the
prior assessment; on 200 load it and compare its modified timestamp with the
event timestamp, dropping the event (returning Ok without POSTing) when the
prior timestamp is strictly greater; otherwise continue with scoring and POST. -/
def handleMqaEvent (env : HandlerEnv) (event : MqaEvent) :
    Except String Unit × List ApiAction :=
  match event.event_type with
  | .unknown => (.error "unknown MqaEventType", [])
  | _ =>
    if env.parseUuid event.fdk_id = false then (.error "unable to parse FDK ID", [])
    else
      match env.getGraph with
      | .invalidStatus _ =>
        (.error "invalid response from scoring api", [ApiAction.getAssessment])
      | .notFound => continueScoring env event [ApiAction.getAssessment]
      | .okBody turtle =>
        match env.loadPrior turtle with
        | .error e => (.error e, [ApiAction.getAssessment])
        | .ok _ =>
          match env.getModified with
          | some priorTs =>
            if priorTs > event.timestamp then (.ok (), [ApiAction.getAssessment])
            else continueScoring env event [ApiAction.getAssessment]
          | none => continueScoring env event [ApiAction.getAssessment]

/-- Observable steps of `receive_message` (src/kafka.rs lines 111-161). -/
inductive WorkerStep where
  | attempt (i : Nat) (success : Bool)
  | sleepMs (ms : Nat)
  | storeOffset
  | incOutcome (success : Bool)
  | observeDuration
deriving DecidableEq, Repr

/-- The `for _ in 0..5` retry loop of `receive_message`: run the handler, stop on
the first Ok, sleep 3000 ms after every failed attempt. Returns the attempt
count, the final result and the trace. -/
def retryAttempts (handler : Nat → Except String Unit) :
    Nat → Nat → Except String Unit → Nat × Except String Unit × List WorkerStep
  | 0, attempts, result => (attempts, result, [])
  | n + 1, attempts, _ =>
    match handler attempts with
    | .ok u => (attempts + 1, .ok u, [WorkerStep.attempt attempts true])
    | .error e =>
      let rest := retryAttempts handler n (attempts + 1) (.error e)
      (rest.1, rest.2.1, WorkerStep.attempt attempts false :: WorkerStep.sleepMs 3000
        :: rest.2.2)

/-- `receive_message` (src/kafka.rs lines 111-161): up to 5 attempts of the
message handler; on success increment the success counter and store the offset,
on final failure increment the error counter and do not store the offset; always
record the processing duration. -/
def receiveMessage (handler : Nat → Except String Unit) :
    Nat × Except String Unit × List WorkerStep :=
  let r := retryAttempts handler 5 0 (.error "handle_message not attempted")
  let tail := match r.2.1 with
    | .ok _ => [WorkerStep.incOutcome true, WorkerStep.storeOffset]
    | .error _ => [WorkerStep.incOutcome false]
  (r.1, r.2.1, r.2.2 ++ tail ++ [WorkerStep.observeDuration])

/-! ### chrono timestamp formatting and parsing
(`insert_modified_timestmap` / `get_modified_timestmap`,
src/assessment_graph.rs lines 152-200)

The Rust code renders an epoch-millisecond timestamp with the chrono format
string `%Y-%m-%d %H:%M:%S%.f %z` for UTC and parses it back with the same
format. chrono converts days since the epoch to a civil date with Howard
Hinnant's algorithm, embedded below over `Nat`. The model covers nonnegative
timestamps: for a negative timestamp with a fractional millisecond part the
Rust code panics (the nanosecond argument wraps as `u32` and
`NaiveDateTime::from_timestamp` rejects it), and pre-1970 rendering is outside
the modelled domain. -/

/-- Civil date (year, month, day) from days since 1970-01-01. -/
def civilFromDays (days : Nat) : Nat × Nat × Nat :=
  let z := days + 719468
  let era := z / 146097
  let doe := z % 146097
  let yoe := (doe - doe / 1460 + doe / 36524 - doe / 146096) / 365
  let y := yoe + era * 400
  let doy := doe - (365 * yoe + yoe / 4 - yoe / 100)
  let mp := (5 * doy + 2) / 153
  let d := doy - (153 * mp + 2) / 5 + 1
  let m := if mp < 10 then mp + 3 else mp - 9
  (if m ≤ 2 then y + 1 else y, m, d)

/-- Days since 1970-01-01 from a civil date (inverse used when parsing). -/
def daysFromCivil (y m d : Nat) : Nat :=
  let y2 := if m ≤ 2 then y - 1 else y
  let era := y2 / 400
  let yoe := y2 % 400
  let doy := (153 * (if 2 < m then m - 3 else m + 9) + 2) / 5 + d - 1
  let doe := yoe * 365 + yoe / 4 - yoe / 100 + doy
  era * 146097 + doe - 719468

/-- The fields of a rendered timestamp. `fracMillis` models chrono `%.f`, which
prints nothing when the fraction is zero and three digits when the fraction is
a whole number of milliseconds. -/
structure DateTimeParts where
  year : Nat
  month : Nat
  day : Nat
  hour : Nat
  minute : Nat
  second : Nat
  fracMillis : Option Nat
deriving DecidableEq, Repr

/-- Decompose nonnegative epoch milliseconds into rendered fields. -/
def millisToParts (t : Nat) : DateTimeParts :=
  let secs := t / 1000
  let ms := t % 1000
  let days := secs / 86400
  let sod := secs % 86400
  let ymd := civilFromDays days
  DateTimeParts.mk ymd.1 ymd.2.1 ymd.2.2 (sod / 3600) (sod % 3600 / 60) (sod % 60)
    (if ms = 0 then none else some ms)

/-- The character of a decimal digit. -/
def digitChar : Nat → Char
  | 0 => '0'
  | 1 => '1'
  | 2 => '2'
  | 3 => '3'
  | 4 => '4'
  | 5 => '5'
  | 6 => '6'
  | 7 => '7'
  | 8 => '8'
  | 9 => '9'
  | _ => '*'

/-- Decimal digit characters of a number, most significant first; the first
argument is structural fuel, sufficient whenever the number is at most the
fuel. -/
def natCharsAux : Nat → Nat → List Char
  | _, 0 => []
  | 0, _ + 1 => []
  | fuel + 1, n + 1 => natCharsAux fuel ((n + 1) / 10) ++ [digitChar ((n + 1) % 10)]

/-- Decimal digit characters of a number, most significant first. -/
def natChars (n : Nat) : List Char :=
  natCharsAux n n

/-- Zero-padded decimal rendering of width `w`. -/
def padChars (w : Nat) (n : Nat) : List Char :=
  List.replicate (w - (natChars n).length) '0' ++ natChars n

/-- Render the timestamp fields with chrono format `%Y-%m-%d %H:%M:%S%.f %z`
for UTC: the offset prints as `+0000` and `%.f` prints `.` plus three digits
for a whole-millisecond fraction, or nothing when the fraction is zero. -/
def renderParts (p : DateTimeParts) : String :=
  String.mk (padChars 4 p.year ++ '-' :: padChars 2 p.month ++ '-' :: padChars 2 p.day ++
    ' ' :: padChars 2 p.hour ++ ':' :: padChars 2 p.minute ++ ':' :: padChars 2 p.second ++
    (match p.fracMillis with
     | none => []
     | some ms => '.' :: padChars 3 ms) ++
    [' ', '+', '0', '0', '0', '0'])

/-- The timestamp string built by `insert_modified_timestmap` (lines 153-162):
split epoch milliseconds into seconds and nanoseconds and format. `none` models
the chrono panic on a negative timestamp with a fractional millisecond part;
negative whole-second timestamps (pre-1970 dates) are outside the modelled
domain. -/
def chronoFormatTimestamp (t : Int) : Option String :=
  if t < 0 then none else some (renderParts (millisToParts t.toNat))

/-- Consume a nonempty run of digit characters as a number. -/
def parseNumField (cs : List Char) : Option (Nat × List Char) :=
  let ds := cs.takeWhile Char.isDigit
  if ds = [] then none
  else some (ds.foldl (fun a c => a * 10 + (c.toNat - 48)) 0, cs.dropWhile Char.isDigit)

/-- Consume one expected character. -/
def expectChar (c : Char) : List Char → Option (List Char)
  | x :: rest => if x = c then some rest else none
  | [] => none

/-- Parse a numeric field followed by one expected separator character. -/
def parseNumSep (sep : Char) (cs : List Char) : Option (Nat × List Char) :=
  match parseNumField cs with
  | none => none
  | some (v, rest) =>
    match expectChar sep rest with
    | none => none
    | some rest2 => some (v, rest2)

/-- Parse the optional `%.f` fraction as milliseconds: the digits after the dot
are nanoseconds right-padded to nine digits. -/
def parseFraction (cs : List Char) : Option (Nat × List Char) :=
  match cs with
  | '.' :: rest =>
    let nd := (rest.takeWhile Char.isDigit).length
    if 9 < nd then none
    else
      match parseNumField rest with
      | some (v, rest2) => some (v * 10 ^ (9 - nd) / 1000000, rest2)
      | none => none
  | other => some (0, other)

/-- Parse a timestamp string with chrono format `%Y-%m-%d %H:%M:%S%.f %z` and
return epoch milliseconds (`DateTime::parse_from_str` followed by
`timestamp_millis`, src/assessment_graph.rs lines 193-195). The fraction after
`%S` is optional. Only the zero offset `+0000` produced by the renderer is
modelled; chrono's calendar-range validation is not modelled as only rendered
strings reach it in the verified paths. -/
def parseTimestampString (s : String) : Option Int :=
  match parseNumSep '-' s.toList with
  | none => none
  | some (y, cs) =>
  match parseNumSep '-' cs with
  | none => none
  | some (mo, cs) =>
  match parseNumSep ' ' cs with
  | none => none
  | some (d, cs) =>
  match parseNumSep ':' cs with
  | none => none
  | some (h, cs) =>
  match parseNumSep ':' cs with
  | none => none
  | some (mi, cs) =>
  match parseNumField cs with
  | none => none
  | some (sec, cs) =>
  match parseFraction cs with
  | none => none
  | some (ms, cs) =>
  match cs with
  | [' ', '+', '0', '0', '0', '0'] =>
    some ((daysFromCivil y mo d * 86400 + h * 3600 + mi * 60 + sec : Int) * 1000 + ms)
  | _ => none

/-- `insert_modified_timestmap` (src/assessment_graph.rs lines 152-172): format
the timestamp, find the dataset assessment, and insert one
`dct:modified` triple with an `xsd:dateTime` literal. Any already-present
modified triple is left in place. The outer `Option` models the chrono panic. -/
def insertModifiedTimestmap (g : RdfGraph) (t : Int) : Option (Except String RdfGraph) :=
  match chronoFormatTimestamp t with
  | none => none
  | some s =>
    some (match AssessmentGraph.dataset g with
      | .error e => .error e
      | .ok node => .ok (insertTriple g
          (Triple.mk (Term.iri node.assessment) dctModifiedIri (Term.lit s xsdDateTimeIri))))

/-- `get_modified_timestmap` (src/assessment_graph.rs lines 175-200): take the
first `dct:modified` triple of the dataset assessment and parse its literal. -/
def getModifiedTimestmap (g : RdfGraph) : Except String Int :=
  match AssessmentGraph.dataset g with
  | .error e => .error e
  | .ok node =>
    match (g.filter (fun tr =>
        tr.subj == Term.iri node.assessment && tr.pred == dctModifiedIri)).head? with
    | some tr =>
      match tr.obj with
      | .lit v _ =>
        match parseTimestampString v with
        | some ts => .ok ts
        | none => .error "unable to parse modified timestamp"
      | _ => .error "measurement graph has no modified timestamp"
    | none => .error "measurement graph has no modified timestamp"

/-! ### Concrete fixtures (src/test.rs) -/

/-- `mqa_node` (src/test.rs): IRI in the dcatno-mqa namespace. -/
def mqaIri (s : String) : String := "https://data.norge.no/vocabulary/dcatno-mqa#" ++ s

/-- `MEASUREMENT_GRAPH` (src/test.rs), as parsed triples in document order. -/
def testMeasurementGraph : RdfGraph :=
  [ Triple.mk (Term.iri "https://dataset.assessment.foo") rdfTypeIri
      (Term.iri datasetAssessmentClassIri)
  , Triple.mk (Term.iri "https://dataset.assessment.foo") assessmentOfIri
      (Term.iri "https://dataset.foo")
  , Triple.mk (Term.iri "https://distribution.assessment.a") rdfTypeIri
      (Term.iri distributionAssessmentClassIri)
  , Triple.mk (Term.iri "https://distribution.assessment.a") assessmentOfIri
      (Term.iri "https://distribution.a")
  , Triple.mk (Term.iri "https://distribution.assessment.b") rdfTypeIri
      (Term.iri distributionAssessmentClassIri)
  , Triple.mk (Term.iri "https://distribution.assessment.b") assessmentOfIri
      (Term.iri "https://distribution.b")
  , Triple.mk (Term.iri "https://dataset.assessment.foo") containsQualityMeasurementIri
      (Term.blank 0)
  , Triple.mk (Term.iri "https://distribution.assessment.a") containsQualityMeasurementIri
      (Term.blank 1)
  , Triple.mk (Term.iri "https://distribution.assessment.a") containsQualityMeasurementIri
      (Term.blank 2)
  , Triple.mk (Term.iri "https://distribution.assessment.b") containsQualityMeasurementIri
      (Term.blank 3)
  , Triple.mk (Term.blank 0) dqvValueIri (Term.lit "true" xsdBooleanIri)
  , Triple.mk (Term.blank 0) isMeasurementOfIri (Term.iri (mqaIri "downloadUrlAvailability"))
  , Triple.mk (Term.blank 1) dqvValueIri (Term.lit "200" xsdIntegerIri)
  , Triple.mk (Term.blank 1) isMeasurementOfIri (Term.iri (mqaIri "accessUrlStatusCode"))
  , Triple.mk (Term.blank 2) dqvValueIri (Term.lit "false" xsdBooleanIri)
  , Triple.mk (Term.blank 2) isMeasurementOfIri (Term.iri (mqaIri "formatAvailability"))
  , Triple.mk (Term.blank 3) dqvValueIri (Term.lit "true" xsdBooleanIri)
  , Triple.mk (Term.blank 3) isMeasurementOfIri (Term.iri (mqaIri "formatAvailability")) ]

/-- `METRIC_GRAPH` and `SCORE_GRAPH` (src/test.rs): the seed catalog with
metrics accessUrlStatusCode=50 and downloadUrlAvailability=20 in dimension
accessibility, and formatAvailability=20 in dimension interoperability. -/
def testCatalogGraph : RdfGraph :=
  [ Triple.mk (Term.iri (mqaIri "accessibility")) rdfTypeIri (Term.iri dqvDimensionClassIri)
  , Triple.mk (Term.iri (mqaIri "interoperability")) rdfTypeIri (Term.iri dqvDimensionClassIri)
  , Triple.mk (Term.iri (mqaIri "accessUrlStatusCode")) rdfTypeIri (Term.iri dqvMetricClassIri)
  , Triple.mk (Term.iri (mqaIri "accessUrlStatusCode")) dqvInDimensionIri
      (Term.iri (mqaIri "accessibility"))
  , Triple.mk (Term.iri (mqaIri "downloadUrlAvailability")) rdfTypeIri
      (Term.iri dqvMetricClassIri)
  , Triple.mk (Term.iri (mqaIri "downloadUrlAvailability")) dqvInDimensionIri
      (Term.iri (mqaIri "accessibility"))
  , Triple.mk (Term.iri (mqaIri "formatAvailability")) rdfTypeIri (Term.iri dqvMetricClassIri)
  , Triple.mk (Term.iri (mqaIri "formatAvailability")) dqvInDimensionIri
      (Term.iri (mqaIri "interoperability"))
  , Triple.mk (Term.iri (mqaIri "accessUrlStatusCode")) trueScoreIri
      (Term.lit "50" xsdIntegerIri)
  , Triple.mk (Term.iri (mqaIri "downloadUrlAvailability")) trueScoreIri
      (Term.lit "20" xsdIntegerIri)
  , Triple.mk (Term.iri (mqaIri "formatAvailability")) trueScoreIri
      (Term.lit "20" xsdIntegerIri) ]

/-- The seed catalog as parsed score definitions. -/
def testScoreDefinitions : ScoreDefinitions :=
  ScoreDefinitions.mk
    [ ScoreDimension.mk (mqaIri "accessibility")
        [ ScoreMetric.mk (mqaIri "accessUrlStatusCode") 50
        , ScoreMetric.mk (mqaIri "downloadUrlAvailability") 20 ] 70
    , ScoreDimension.mk (mqaIri "interoperability")
        [ ScoreMetric.mk (mqaIri "formatAvailability") 20 ] 20 ] 90

/-- A graph whose two distribution assessments iterate in descending IRI order. -/
def unsortedDistributionsGraph : RdfGraph :=
  [ Triple.mk (Term.iri "https://distribution.assessment.b") rdfTypeIri
      (Term.iri distributionAssessmentClassIri)
  , Triple.mk (Term.iri "https://distribution.assessment.b") assessmentOfIri
      (Term.iri "https://distribution.b")
  , Triple.mk (Term.iri "https://distribution.assessment.a") rdfTypeIri
      (Term.iri distributionAssessmentClassIri)
  , Triple.mk (Term.iri "https://distribution.assessment.a") assessmentOfIri
      (Term.iri "https://distribution.a") ]

/-- A graph whose single measurement value is a boolean-typed literal with a
non-boolean lexical form. -/
def badBooleanGraph : RdfGraph :=
  [ Triple.mk (Term.iri "https://dataset.assessment.foo") containsQualityMeasurementIri
      (Term.blank 0)
  , Triple.mk (Term.blank 0) isMeasurementOfIri (Term.iri (mqaIri "formatAvailability"))
  , Triple.mk (Term.blank 0) dqvValueIri (Term.lit "banana" xsdBooleanIri) ]

/-- A graph whose single measurement value is an integer-typed literal with a
non-integer lexical form. -/
def badIntegerGraph : RdfGraph :=
  [ Triple.mk (Term.iri "https://dataset.assessment.foo") containsQualityMeasurementIri
      (Term.blank 0)
  , Triple.mk (Term.blank 0) isMeasurementOfIri (Term.iri (mqaIri "accessUrlStatusCode"))
  , Triple.mk (Term.blank 0) dqvValueIri (Term.lit "abc" xsdIntegerIri) ]

/-- A dataset assessment graph that already carries a modified timestamp. -/
def priorModifiedGraph : RdfGraph :=
  [ Triple.mk (Term.iri "https://dataset.assessment.foo") rdfTypeIri
      (Term.iri datasetAssessmentClassIri)
  , Triple.mk (Term.iri "https://dataset.assessment.foo") assessmentOfIri
      (Term.iri "https://dataset.foo")
  , Triple.mk (Term.iri "https://dataset.assessment.foo") dctModifiedIri
      (Term.lit "1970-01-01 00:00:01 +0000" xsdDateTimeIri) ]

/-- A dataset assessment graph without a modified timestamp. -/
def freshDatasetGraph : RdfGraph :=
  [ Triple.mk (Term.iri "https://dataset.assessment.foo") rdfTypeIri
      (Term.iri datasetAssessmentClassIri)
  , Triple.mk (Term.iri "https://dataset.assessment.foo") assessmentOfIri
      (Term.iri "https://dataset.foo") ]

/-- The dataset score expected for the test measurement graph (src/score.rs
test `score_measurements`). -/
def testDatasetScore : Score :=
  Score.mk "https://dataset.assessment.foo" "https://dataset.foo"
    [ DimensionScore.mk (mqaIri "accessibility")
        [ MetricScore.mk (mqaIri "accessUrlStatusCode") (some 50)
        , MetricScore.mk (mqaIri "downloadUrlAvailability") (some 20) ] 70
    , DimensionScore.mk (mqaIri "interoperability")
        [ MetricScore.mk (mqaIri "formatAvailability") (some 0) ] 0 ] 70

/-- Distribution a's expected unmerged score (src/score.rs test). -/
def testDistributionScoreA : Score :=
  Score.mk "https://distribution.assessment.a" "https://distribution.a"
    [ DimensionScore.mk (mqaIri "accessibility")
        [ MetricScore.mk (mqaIri "accessUrlStatusCode") (some 50)
        , MetricScore.mk (mqaIri "downloadUrlAvailability") none ] 50
    , DimensionScore.mk (mqaIri "interoperability")
        [ MetricScore.mk (mqaIri "formatAvailability") (some 0) ] 0 ] 50

/-- Distribution b's expected unmerged score (src/score.rs test). -/
def testDistributionScoreB : Score :=
  Score.mk "https://distribution.assessment.b" "https://distribution.b"
    [ DimensionScore.mk (mqaIri "accessibility")
        [ MetricScore.mk (mqaIri "accessUrlStatusCode") none
        , MetricScore.mk (mqaIri "downloadUrlAvailability") none ] 0
    , DimensionScore.mk (mqaIri "interoperability")
        [ MetricScore.mk (mqaIri "formatAvailability") (some 20) ] 20 ] 20

/-- Whether a handler result is Ok (an attempt counts as successful). -/
def exceptIsOk : Except String Unit → Bool
  | .ok _ => true
  | .error _ => false

/-! ## Theorems -/

/-! ### General lemmas about `Except` traversals -/

theorem mapM_ok_forall2 {α β : Type} (f : α → Except String β) :
    ∀ (l : List α) (r : List β), l.mapM f = .ok r →
      List.Forall₂ (fun x y => f x = .ok y) l r := by
  intro l
  induction l with
  | nil =>
    intro r h
    simp only [List.mapM_nil, pure, Except.pure, Except.ok.injEq] at h
    cases h
    exact List.Forall₂.nil
  | cons x xs ih =>
    intro r h
    rw [List.mapM_cons] at h
    cases hfx : f x with
    | error e => rw [hfx] at h; simp [Bind.bind, Except.bind] at h
    | ok y =>
      rw [hfx] at h
      cases hxs : xs.mapM f with
      | error e => rw [hxs] at h; simp [Bind.bind, Except.bind] at h
      | ok ys =>
        rw [hxs] at h
        simp only [Bind.bind, Except.bind, pure, Except.pure, Except.ok.injEq] at h
        cases h
        exact List.Forall₂.cons hfx (ih ys hxs)

theorem mapM_error_iff {α β : Type} (f : α → Except String β) :
    ∀ (l : List α), (∃ e, l.mapM f = .error e) ↔ ∃ x ∈ l, ∃ e, f x = .error e := by
  intro l
  induction l with
  | nil =>
    constructor
    · rintro ⟨e, he⟩
      simp [List.mapM, List.mapM.loop, pure, Except.pure] at he
    · rintro ⟨x, hx, _⟩
      cases hx
  | cons x xs ih =>
    rw [List.mapM_cons]
    cases hfx : f x with
    | error e =>
      simp only [Bind.bind, Except.bind]
      constructor
      · intro _
        exact ⟨x, List.mem_cons_self x xs, e, hfx⟩
      · intro _
        exact ⟨e, rfl⟩
    | ok y =>
      cases hxs : xs.mapM f with
      | error e =>
        simp only [Bind.bind, Except.bind]
        constructor
        · intro _
          obtain ⟨x2, hx2, he2⟩ := ih.mp ⟨e, hxs⟩
          exact ⟨x2, List.mem_cons_of_mem x hx2, he2⟩
        · intro _
          exact ⟨e, rfl⟩
      | ok ys =>
        simp only [Bind.bind, Except.bind, pure, Except.pure]
        constructor
        · rintro ⟨e, he⟩
          cases he
        · rintro ⟨x2, hx2, e2, he2⟩
          rcases List.mem_cons.mp hx2 with rfl | hmem
          · rw [hfx] at he2; cases he2
          · obtain ⟨e3, he3⟩ := ih.mpr ⟨x2, hmem, e2, he2⟩
            rw [he3] at hxs; cases hxs

theorem forall2_mem_right {α β : Type} {R : α → β → Prop} :
    ∀ {l : List α} {r : List β}, List.Forall₂ R l r → ∀ b ∈ r, ∃ a ∈ l, R a b := by
  intro l r h
  induction h with
  | nil => intro b hb; cases hb
  | cons hR hF ih =>
    intro b hb
    rcases List.mem_cons.mp hb with rfl | hb2
    · exact ⟨_, List.mem_cons_self _ _, hR⟩
    · obtain ⟨a, ha, hr⟩ := ih b hb2
      exact ⟨a, List.mem_cons_of_mem _ ha, hr⟩

theorem forall2_map_eq {α β γ : Type} {R : α → β → Prop} (g : α → γ) (k : β → γ)
    (hgk : ∀ a b, R a b → g a = k b) :
    ∀ {l : List α} {r : List β}, List.Forall₂ R l r → l.map g = r.map k := by
  intro l r h
  induction h with
  | nil => rfl
  | cons hR _ ih => simp only [List.map_cons, hgk _ _ hR, ih]

theorem pairwise_of_forall2 {α β : Type} {R : α → β → Prop} {P : α → α → Prop}
    {Q : β → β → Prop} (hpq : ∀ a b a2 b2, R a b → R a2 b2 → P a a2 → Q b b2) :
    ∀ {l : List α} {r : List β}, List.Forall₂ R l r → l.Pairwise P → r.Pairwise Q := by
  intro l r h
  induction h with
  | nil => intro _; exact List.Pairwise.nil
  | cons hR hF ih =>
    intro hp
    rcases List.pairwise_cons.mp hp with ⟨hhead, htail⟩
    refine List.Pairwise.cons ?_ (ih htail)
    intro b2 hb2
    obtain ⟨a2, ha2, hr2⟩ := forall2_mem_right hF b2 hb2
    exact hpq _ _ _ _ hR hr2 (hhead a2 ha2)

/-- `Option::max` on `Option<u64>` agrees with the max-merge rule of the spec:
treat absent as 0 for the comparison, stay absent only when both are absent. -/
theorem optionMax_eq (a b : Option Nat) :
    optionMax a b =
      if a = none ∧ b = none then none else some (max (a.getD 0) (b.getD 0)) := by
  rcases a with _ | x <;> rcases b with _ | y <;>
    simp [optionMax, Nat.zero_max, Nat.max_zero]

/-! ### Claim C2: the max-merge rule -/

/-- C2: for every pair of dimension-score lists of equal length and identical
dimension/metric order, `merge_dimension_scores` produces, for each metric, the
larger of the two metric scores (absent counts as 0 for the comparison, the
result is absent only when both inputs are absent), and each merged dimension
total is the sum of its merged metric scores. -/
theorem claim_C2 (dims other : List DimensionScore) (hlen : dims.length = other.length) :
    (mergeDimensionScores dims other).length = dims.length ∧
    ∀ i (hi : i < (mergeDimensionScores dims other).length) (hd : i < dims.length)
      (ho : i < other.length),
      ((mergeDimensionScores dims other).get ⟨i, hi⟩).id = (dims.get ⟨i, hd⟩).id ∧
      ((mergeDimensionScores dims other).get ⟨i, hi⟩).score =
        sumMetrics ((mergeDimensionScores dims other).get ⟨i, hi⟩).metrics ∧
      ((mergeDimensionScores dims other).get ⟨i, hi⟩).metrics.length =
        min (dims.get ⟨i, hd⟩).metrics.length (other.get ⟨i, ho⟩).metrics.length ∧
      ∀ j (hj : j < ((mergeDimensionScores dims other).get ⟨i, hi⟩).metrics.length)
        (hjd : j < (dims.get ⟨i, hd⟩).metrics.length)
        (hjo : j < (other.get ⟨i, ho⟩).metrics.length),
        (((mergeDimensionScores dims other).get ⟨i, hi⟩).metrics.get ⟨j, hj⟩).id =
          ((dims.get ⟨i, hd⟩).metrics.get ⟨j, hjd⟩).id ∧
        (((mergeDimensionScores dims other).get ⟨i, hi⟩).metrics.get ⟨j, hj⟩).score =
          (if ((dims.get ⟨i, hd⟩).metrics.get ⟨j, hjd⟩).score = none ∧
              ((other.get ⟨i, ho⟩).metrics.get ⟨j, hjo⟩).score = none then none
           else some (max (((dims.get ⟨i, hd⟩).metrics.get ⟨j, hjd⟩).score.getD 0)
              (((other.get ⟨i, ho⟩).metrics.get ⟨j, hjo⟩).score.getD 0))) := by
  constructor
  · simp [mergeDimensionScores, List.length_zip, hlen]
  · intro i hi hd ho
    have hmerge : (mergeDimensionScores dims other).get ⟨i, hi⟩ =
        (fun p : DimensionScore × DimensionScore =>
          let metrics := (p.1.metrics.zip p.2.metrics).map fun q =>
            MetricScore.mk q.1.id (optionMax q.1.score q.2.score)
          DimensionScore.mk p.1.id metrics (sumMetrics metrics))
          (dims.get ⟨i, hd⟩, other.get ⟨i, ho⟩) := by
      simp [mergeDimensionScores, List.get_eq_getElem, List.getElem_map, List.getElem_zip]
    rw [hmerge]
    refine ⟨rfl, rfl, by simp [List.length_zip], ?_⟩
    intro j hj hjd hjo
    have hget : ((((dims.get ⟨i, hd⟩).metrics.zip (other.get ⟨i, ho⟩).metrics).map fun q =>
        MetricScore.mk q.1.id (optionMax q.1.score q.2.score)).get ⟨j, hj⟩) =
        MetricScore.mk ((dims.get ⟨i, hd⟩).metrics.get ⟨j, hjd⟩).id
          (optionMax ((dims.get ⟨i, hd⟩).metrics.get ⟨j, hjd⟩).score
            ((other.get ⟨i, ho⟩).metrics.get ⟨j, hjo⟩).score) := by
      simp [List.get_eq_getElem, List.getElem_map, List.getElem_zip]
    exact ⟨by rw [hget], by rw [hget]; exact optionMax_eq _ _⟩

/-- C2 witness: the merge applied at a concrete pair of dimension-score lists. -/
theorem claim_C2_witness :
    (mergeDimensionScores
        [DimensionScore.mk "d" [MetricScore.mk "m" (some 3), MetricScore.mk "n" none] 3]
        [DimensionScore.mk "d" [MetricScore.mk "m" none, MetricScore.mk "n" none] 0]).length
      = 1 :=
  (claim_C2
    [DimensionScore.mk "d" [MetricScore.mk "m" (some 3), MetricScore.mk "n" none] 3]
    [DimensionScore.mk "d" [MetricScore.mk "m" none, MetricScore.mk "n" none] 0]
    rfl).1

/-! ### Claim C3: the metric scoring rule -/

/-- C3: for a status-code metric, scoring an integer value v yields the metric
maximum iff 200 <= v < 300 (else 0) and any non-integer value is an error; for
every other metric, scoring a boolean yields the maximum iff it is true (else 0)
and any non-boolean value is an error. -/
theorem claim_C3 (m : ScoreMetric) (v : MeasurementValue) :
    ((m.name = accessUrlStatusCodeIri ∨ m.name = downloadUrlStatusCodeIri) →
      (∀ i, v = .int i →
        m.scoreOf v = .ok (if 200 ≤ i ∧ i < 300 then m.score else 0)) ∧
      ((∀ i, v ≠ .int i) → ∃ e, m.scoreOf v = .error e)) ∧
    (¬(m.name = accessUrlStatusCodeIri ∨ m.name = downloadUrlStatusCodeIri) →
      (∀ b, v = .bool b → m.scoreOf v = .ok (if b then m.score else 0)) ∧
      ((∀ b, v ≠ .bool b) → ∃ e, m.scoreOf v = .error e)) := by
  constructor
  · intro hname
    constructor
    · rintro i rfl
      simp only [ScoreMetric.scoreOf, if_pos hname, Bind.bind, Except.bind, pure, Except.pure]
      by_cases hc : 200 ≤ i ∧ i < 300
      · simp [hc]
      · simp [hc]
    · intro hnot
      cases v with
      | int i => exact absurd rfl (hnot i)
      | bool b =>
        exact ⟨_, by simp only [ScoreMetric.scoreOf, if_pos hname, Bind.bind, Except.bind]; rfl⟩
      | str s =>
        exact ⟨_, by simp only [ScoreMetric.scoreOf, if_pos hname, Bind.bind, Except.bind]; rfl⟩
      | unknown s =>
        exact ⟨_, by simp only [ScoreMetric.scoreOf, if_pos hname, Bind.bind, Except.bind]; rfl⟩
  · intro hname
    constructor
    · rintro b rfl
      simp only [ScoreMetric.scoreOf, if_neg hname, Bind.bind, Except.bind, pure, Except.pure]
    · intro hnot
      cases v with
      | bool b => exact absurd rfl (hnot b)
      | int i =>
        exact ⟨_, by simp only [ScoreMetric.scoreOf, if_neg hname, Bind.bind, Except.bind]; rfl⟩
      | str s =>
        exact ⟨_, by simp only [ScoreMetric.scoreOf, if_neg hname, Bind.bind, Except.bind]; rfl⟩
      | unknown s =>
        exact ⟨_, by simp only [ScoreMetric.scoreOf, if_neg hname, Bind.bind, Except.bind]; rfl⟩

/-- C3 witness: the scoring rule applied to the accessUrlStatusCode metric with
the integer value 200, awarding the full 50 points. -/
theorem claim_C3_witness :
    (ScoreMetric.mk accessUrlStatusCodeIri 50).scoreOf (.int 200) =
      .ok (if 200 ≤ (200 : Int) ∧ (200 : Int) < 300 then 50 else 0) :=
  ((claim_C3 (ScoreMetric.mk accessUrlStatusCodeIri 50) (.int 200)).1
    (Or.inl rfl)).1 200 rfl

/-! ### Claim C5: the bounded retry loop -/

theorem retryAttempts_zero (handler : Nat → Except String Unit) (a : Nat)
    (r0 : Except String Unit) : retryAttempts handler 0 a r0 = (a, r0, []) := rfl

theorem retryAttempts_succ_ok (handler : Nat → Except String Unit) (n a : Nat)
    (r0 : Except String Unit) (u : Unit) (h : handler a = .ok u) :
    retryAttempts handler (n + 1) a r0 = (a + 1, .ok u, [WorkerStep.attempt a true]) := by
  simp only [retryAttempts, h]

theorem retryAttempts_succ_error (handler : Nat → Except String Unit) (n a : Nat)
    (r0 : Except String Unit) (e : String) (h : handler a = .error e) :
    retryAttempts handler (n + 1) a r0 =
      ((retryAttempts handler n (a + 1) (.error e)).1,
        (retryAttempts handler n (a + 1) (.error e)).2.1,
        WorkerStep.attempt a false :: WorkerStep.sleepMs 3000 ::
          (retryAttempts handler n (a + 1) (.error e)).2.2) := by
  simp only [retryAttempts, h]

theorem retryAttempts_le (handler : Nat → Except String Unit) :
    ∀ fuel a r0, (retryAttempts handler fuel a r0).1 ≤ a + fuel := by
  intro fuel
  induction fuel with
  | zero => intro a r0; rw [retryAttempts_zero]; dsimp only; omega
  | succ n ih =>
    intro a r0
    cases hha : handler a with
    | ok u => rw [retryAttempts_succ_ok handler n a r0 u hha]; dsimp only; omega
    | error e =>
      rw [retryAttempts_succ_error handler n a r0 e hha]
      have := ih (a + 1) (.error e)
      omega

theorem retryAttempts_ge (handler : Nat → Except String Unit) :
    ∀ fuel a r0, a ≤ (retryAttempts handler fuel a r0).1 := by
  intro fuel
  induction fuel with
  | zero => intro a r0; rw [retryAttempts_zero]
  | succ n ih =>
    intro a r0
    cases hha : handler a with
    | ok u => rw [retryAttempts_succ_ok handler n a r0 u hha]; dsimp only; omega
    | error e =>
      rw [retryAttempts_succ_error handler n a r0 e hha]
      have := ih (a + 1) (.error e)
      omega

theorem retryAttempts_early_stop (handler : Nat → Except String Unit) :
    ∀ fuel a r0 i, a ≤ i → i + 1 < (retryAttempts handler fuel a r0).1 →
      ∃ e, handler i = .error e := by
  intro fuel
  induction fuel with
  | zero =>
    intro a r0 i hai hlt
    rw [retryAttempts_zero] at hlt
    omega
  | succ n ih =>
    intro a r0 i hai hlt
    cases hha : handler a with
    | ok u =>
      rw [retryAttempts_succ_ok handler n a r0 u hha] at hlt
      omega
    | error e =>
      rw [retryAttempts_succ_error handler n a r0 e hha] at hlt
      rcases Nat.eq_or_lt_of_le hai with rfl | hlt2
      · exact ⟨e, hha⟩
      · exact ih (a + 1) (.error e) i hlt2 hlt

theorem retryAttempts_ok_iff (handler : Nat → Except String Unit) :
    ∀ fuel a e0, (retryAttempts handler fuel a (.error e0)).2.1 = .ok () ↔
      ∃ i, a ≤ i ∧ i < a + fuel ∧ handler i = .ok () := by
  intro fuel
  induction fuel with
  | zero =>
    intro a e0
    rw [retryAttempts_zero]
    constructor
    · intro h
      cases h
    · rintro ⟨i, h1, h2, _⟩
      omega
  | succ n ih =>
    intro a e0
    cases hha : handler a with
    | ok u =>
      cases u
      rw [retryAttempts_succ_ok handler n a (.error e0) () hha]
      dsimp only
      constructor
      · intro _
        exact ⟨a, le_refl a, by omega, hha⟩
      · intro _
        rfl
    | error e =>
      rw [retryAttempts_succ_error handler n a (.error e0) e hha]
      rw [ih (a + 1) e]
      constructor
      · rintro ⟨i, h1, h2, h3⟩
        exact ⟨i, by omega, by omega, h3⟩
      · rintro ⟨i, h1, h2, h3⟩
        have hne : i ≠ a := by
          intro hia
          rw [hia, hha] at h3
          cases h3
        exact ⟨i, by omega, by omega, h3⟩

theorem retryAttempts_ok_ge (handler : Nat → Except String Unit) :
    ∀ fuel a e0, (retryAttempts handler fuel a (.error e0)).2.1 = .ok () →
      a + 1 ≤ (retryAttempts handler fuel a (.error e0)).1 := by
  intro fuel
  induction fuel with
  | zero =>
    intro a e0 h
    rw [retryAttempts_zero] at h
    cases h
  | succ n ih =>
    intro a e0 h
    cases hha : handler a with
    | ok u =>
      rw [retryAttempts_succ_ok handler n a (.error e0) u hha]
    | error e =>
      rw [retryAttempts_succ_error handler n a (.error e0) e hha] at h ⊢
      have := ih (a + 1) e h
      omega

theorem retryAttempts_steps_shape (handler : Nat → Except String Unit) :
    ∀ fuel a r0 s, s ∈ (retryAttempts handler fuel a r0).2.2 →
      (∃ i b, s = WorkerStep.attempt i b) ∨ s = WorkerStep.sleepMs 3000 := by
  intro fuel
  induction fuel with
  | zero =>
    intro a r0 s hs
    rw [retryAttempts_zero] at hs
    cases hs
  | succ n ih =>
    intro a r0 s hs
    cases hha : handler a with
    | ok u =>
      rw [retryAttempts_succ_ok handler n a r0 u hha] at hs
      simp only [List.mem_singleton] at hs
      exact Or.inl ⟨a, true, hs⟩
    | error e =>
      rw [retryAttempts_succ_error handler n a r0 e hha] at hs
      simp only [List.mem_cons] at hs
      rcases hs with rfl | rfl | hs
      · exact Or.inl ⟨a, false, rfl⟩
      · exact Or.inr rfl
      · exact ih (a + 1) (.error e) s hs

theorem retryAttempts_sleep_count (handler : Nat → Except String Unit) :
    ∀ fuel a e0,
      ((retryAttempts handler fuel a (.error e0)).2.2.filter
        (fun s => s == WorkerStep.sleepMs 3000)).length =
      (retryAttempts handler fuel a (.error e0)).1 - a -
        (if exceptIsOk (retryAttempts handler fuel a (.error e0)).2.1 then 1 else 0) := by
  intro fuel
  induction fuel with
  | zero =>
    intro a e0
    rw [retryAttempts_zero]
    simp [exceptIsOk]
  | succ n ih =>
    intro a e0
    cases hha : handler a with
    | ok u =>
      rw [retryAttempts_succ_ok handler n a (.error e0) u hha]
      have h1 : (WorkerStep.attempt a true == WorkerStep.sleepMs 3000) = false := by simp
      simp [List.filter_cons, h1, exceptIsOk]
    | error e =>
      rw [retryAttempts_succ_error handler n a (.error e0) e hha]
      rw [List.filter_cons, List.filter_cons]
      have h1 : (WorkerStep.attempt a false == WorkerStep.sleepMs 3000) = false := by
        simp
      have h2 : (WorkerStep.sleepMs 3000 == WorkerStep.sleepMs 3000) = true := by
        simp
      rw [h1, h2]
      simp only [Bool.false_eq_true, if_false, if_true, List.length_cons]
      have hge := retryAttempts_ge handler n (a + 1) (.error e)
      have hok := retryAttempts_ok_ge handler n (a + 1) e
      have hih := ih (a + 1) e
      cases hres : (retryAttempts handler n (a + 1) (.error e)).2.1 with
      | ok u2 =>
        cases u2
        rw [hres] at hih
        simp [exceptIsOk] at hih ⊢
        have := hok hres
        omega
      | error e2 =>
        rw [hres] at hih
        simp [exceptIsOk] at hih ⊢
        omega

/-- C5: for every received message, the worker makes at most 5 attempts of the
message handler, sleeping 3 seconds (3000 ms) between attempts and stopping
early on the first Ok; the offset is stored iff some attempt returned Ok, and
on final failure the error outcome counter is incremented and the offset is not
stored. -/
theorem claim_C5 (handler : Nat → Except String Unit) :
    (receiveMessage handler).1 ≤ 5 ∧
    (∀ i, i + 1 < (receiveMessage handler).1 → ∃ e, handler i = .error e) ∧
    ((receiveMessage handler).2.1 = .ok () ↔ ∃ i, i < 5 ∧ handler i = .ok ()) ∧
    (WorkerStep.storeOffset ∈ (receiveMessage handler).2.2 ↔
      ∃ i, i < 5 ∧ handler i = .ok ()) ∧
    (WorkerStep.incOutcome false ∈ (receiveMessage handler).2.2 ↔
      ¬∃ i, i < 5 ∧ handler i = .ok ()) ∧
    (WorkerStep.incOutcome false ∈ (receiveMessage handler).2.2 →
      WorkerStep.storeOffset ∉ (receiveMessage handler).2.2) ∧
    ((receiveMessage handler).2.2.filter (fun s => s == WorkerStep.sleepMs 3000)).length =
      (receiveMessage handler).1 -
        (if exceptIsOk (receiveMessage handler).2.1 then 1 else 0) := by
  have hle := retryAttempts_le handler 5 0 (.error "handle_message not attempted")
  have hstop := retryAttempts_early_stop handler 5 0 (.error "handle_message not attempted")
  have hokiff := retryAttempts_ok_iff handler 5 0 "handle_message not attempted"
  have hshape := retryAttempts_steps_shape handler 5 0 (.error "handle_message not attempted")
  have hsleep := retryAttempts_sleep_count handler 5 0 "handle_message not attempted"
  have hex : (∃ i, 0 ≤ i ∧ i < 0 + 5 ∧ handler i = .ok ()) ↔
      (∃ i, i < 5 ∧ handler i = .ok ()) := by
    constructor
    · rintro ⟨i, _, h2, h3⟩
      exact ⟨i, by omega, h3⟩
    · rintro ⟨i, h2, h3⟩
      exact ⟨i, by omega, by omega, h3⟩
  rw [hex] at hokiff
  have hnotin : WorkerStep.incOutcome false ∉
      (retryAttempts handler 5 0 (.error "handle_message not attempted")).2.2 := by
    intro hmem
    rcases hshape _ hmem with ⟨i, b, hib⟩ | hib <;> cases hib
  have hnotin2 : WorkerStep.storeOffset ∉
      (retryAttempts handler 5 0 (.error "handle_message not attempted")).2.2 := by
    intro hmem
    rcases hshape _ hmem with ⟨i, b, hib⟩ | hib <;> cases hib
  cases hres : (retryAttempts handler 5 0 (.error "handle_message not attempted")).2.1 with
  | ok u =>
    cases u
    have hexists := hokiff.mp hres
    rw [hres] at hsleep
    simp only [exceptIsOk] at hsleep
    simp only [receiveMessage, hres]
    refine ⟨by omega, ?_, ?_, ?_, ?_, ?_, ?_⟩
    · intro i hi
      exact hstop i (Nat.zero_le i) hi
    · exact ⟨fun _ => hexists, fun _ => by trivial⟩
    · constructor
      · intro _
        exact hexists
      · intro _
        simp [List.mem_append]
    · constructor
      · intro hmem
        rcases List.mem_append.mp hmem with hmem2 | hmem2
        · rcases List.mem_append.mp hmem2 with hmem3 | hmem3
          · exact absurd hmem3 hnotin
          · simp at hmem3
        · simp at hmem2
      · intro hn
        exact absurd hexists hn
    · intro hmem
      rcases List.mem_append.mp hmem with hmem2 | hmem2
      · rcases List.mem_append.mp hmem2 with hmem3 | hmem3
        · exact absurd hmem3 hnotin
        · simp at hmem3
      · simp at hmem2
    · rw [List.filter_append, List.filter_append]
      have htail : ([WorkerStep.incOutcome true, WorkerStep.storeOffset].filter
          (fun s => s == WorkerStep.sleepMs 3000)) = [] := by rfl
      have hobs : ([WorkerStep.observeDuration].filter
          (fun s => s == WorkerStep.sleepMs 3000)) = [] := by rfl
      rw [htail, hobs]
      simp only [List.append_nil, List.length_append, List.length_nil, exceptIsOk]
      omega
  | error e =>
    have hnotex : ¬ ∃ i, i < 5 ∧ handler i = .ok () := by
      intro hex2
      have := hokiff.mpr hex2
      rw [hres] at this
      cases this
    rw [hres] at hsleep
    simp only [exceptIsOk] at hsleep
    simp only [receiveMessage, hres]
    refine ⟨by omega, ?_, ?_, ?_, ?_, ?_, ?_⟩
    · intro i hi
      exact hstop i (Nat.zero_le i) hi
    · constructor
      · intro hcontr
        cases hcontr
      · intro hex2
        exact absurd hex2 hnotex
    · constructor
      · intro hmem
        rcases List.mem_append.mp hmem with hmem2 | hmem2
        · rcases List.mem_append.mp hmem2 with hmem3 | hmem3
          · exact absurd hmem3 hnotin2
          · simp at hmem3
        · simp at hmem2
      · intro hex2
        exact absurd hex2 hnotex
    · constructor
      · intro _
        exact hnotex
      · intro _
        simp [List.mem_append]
    · intro _ hmem
      rcases List.mem_append.mp hmem with hmem2 | hmem2
      · rcases List.mem_append.mp hmem2 with hmem3 | hmem3
        · exact absurd hmem3 hnotin2
        · simp at hmem3
      · simp at hmem2
    · rw [List.filter_append, List.filter_append]
      have htail : ([WorkerStep.incOutcome false].filter
          (fun s => s == WorkerStep.sleepMs 3000)) = [] := by rfl
      have hobs : ([WorkerStep.observeDuration].filter
          (fun s => s == WorkerStep.sleepMs 3000)) = [] := by rfl
      rw [htail, hobs]
      simp only [List.append_nil, List.length_append, List.length_nil, exceptIsOk]
      omega

/-- C5 witness: a handler failing twice and then succeeding stores the offset. -/
theorem claim_C5_witness :
    (receiveMessage (fun i => if i < 2 then .error "boom" else .ok ())).1 ≤ 5 :=
  (claim_C5 (fun i => if i < 2 then .error "boom" else .ok ())).1

/-! ### Claim C4: stale events are dropped without a POST -/

/-- C4: when the GET of the prior assessment returns 200 and the prior modified
timestamp is strictly greater than the event timestamp, the handler POSTs
nothing and returns Ok. -/
theorem claim_C4 (env : HandlerEnv) (event : MqaEvent) (turtle : String) (priorTs : Int)
    (htype : event.event_type ≠ .unknown)
    (huuid : env.parseUuid event.fdk_id = true)
    (hget : env.getGraph = .okBody turtle)
    (hload : env.loadPrior turtle = .ok ())
    (hmod : env.getModified = some priorTs)
    (hgt : priorTs > event.timestamp) :
    handleMqaEvent env event = (.ok (), [ApiAction.getAssessment]) ∧
    ApiAction.postAssessment ∉ (handleMqaEvent env event).2 := by
  have hmain : handleMqaEvent env event = (.ok (), [ApiAction.getAssessment]) := by
    cases htt : event.event_type with
    | unknown => exact absurd htt htype
    | propertiesChecked =>
      simp only [handleMqaEvent, htt, huuid, hget, hload, hmod]
      simp [if_pos hgt]
    | urlsChecked =>
      simp only [handleMqaEvent, htt, huuid, hget, hload, hmod]
      simp [if_pos hgt]
    | dcatComplienceChecked =>
      simp only [handleMqaEvent, htt, huuid, hget, hload, hmod]
      simp [if_pos hgt]
  refine ⟨hmain, ?_⟩
  rw [hmain]
  simp

/-- C4 witness: a concrete stale event (prior timestamp 10, event timestamp 5)
is dropped with no POST. -/
theorem claim_C4_witness :
    handleMqaEvent
      (HandlerEnv.mk (fun _ => true) (.okBody "prior") (fun _ => .ok ()) (some 10)
        (fun _ => .ok ()) (fun _ => .ok ())
        (.ok (Score.mk "a" "r" [] 0, [])) (.ok ()) (.ok ()) (.ok "turtle")
        (fun _ => .ok "jsonld") (.ok ()))
      (MqaEvent.mk .propertiesChecked "id" "graph" 5) =
      (.ok (), [ApiAction.getAssessment]) :=
  (claim_C4
    (HandlerEnv.mk (fun _ => true) (.okBody "prior") (fun _ => .ok ()) (some 10)
      (fun _ => .ok ()) (fun _ => .ok ())
      (.ok (Score.mk "a" "r" [] 0, [])) (.ok ()) (.ok ()) (.ok "turtle")
      (fun _ => .ok "jsonld") (.ok ()))
    (MqaEvent.mk .propertiesChecked "id" "graph" 5) "prior" 10
    (by intro h; cases h) rfl rfl rfl rfl (by decide)).1

/-! ### Claim C7: ordering of emitted lists -/

theorem metricOfRow_ok_name (row : Term × Term) (m : ScoreMetric)
    (h : metricOfRow row = .ok m) : row.1 = Term.iri m.name := by
  rcases row with ⟨mt, st⟩
  cases mt with
  | iri s =>
    cases st with
    | lit v dt =>
      simp only [metricOfRow] at h
      cases hu : rustParseU64 v with
      | some n =>
        rw [hu] at h
        simp only [Except.ok.injEq] at h
        rw [← h]
      | none => rw [hu] at h; cases h
    | iri s2 => simp only [metricOfRow] at h; cases h
    | blank n => simp only [metricOfRow] at h; cases h
  | blank n => simp only [metricOfRow] at h; cases h
  | lit v dt => simp only [metricOfRow] at h; cases h

/-- C7 counterexample: `distributions()` applies no sort; on a store whose
iteration yields assessment b before assessment a, the returned list is not
ascending by assessment IRI. -/
theorem claim_C7_counterexample :
    AssessmentGraph.distributions unsortedDistributionsGraph =
      .ok [AssessmentNode.mk "https://distribution.assessment.b" "https://distribution.b",
        AssessmentNode.mk "https://distribution.assessment.a" "https://distribution.a"] ∧
    ¬ ("https://distribution.assessment.b" ≤ "https://distribution.assessment.a") := by
  constructor
  · rfl
  · rw [String.le_iff_toList_le]
    decide

/-- C7 amended: the catalog's dimension list and each dimension's metric list
are sorted ascending by IRI; `distributions()` preserves the store-iteration
order of the `DistributionAssessment` type triples and applies no sorting. -/
theorem claim_C7 :
    (∀ g l, ScoreGraph.dimensions g = .ok l → l.Sorted (fun a b => a ≤ b)) ∧
    (∀ g dim l, ScoreGraph.metrics g dim = .ok l →
      (l.map ScoreMetric.name).Sorted (fun a b => a ≤ b)) ∧
    (∀ g l, AssessmentGraph.distributions g = .ok l →
      (l.map AssessmentNode.assessment).map Term.iri =
        (typeQuads g distributionAssessmentClassIri).map Triple.subj) := by
  refine ⟨?_, ?_, ?_⟩
  · intro g l h
    simp only [ScoreGraph.dimensions] at h
    cases hds : (typeQuads g dqvDimensionClassIri).mapM namedQuadSubject with
    | error e => rw [hds] at h; simp [Bind.bind, Except.bind] at h
    | ok ds =>
      rw [hds] at h
      simp only [Bind.bind, Except.bind, pure, Except.pure, Except.ok.injEq] at h
      rw [← h]
      exact List.sorted_insertionSort _ ds
  · intro g dim l h
    simp only [ScoreGraph.metrics] at h
    have hf := mapM_ok_forall2 _ _ _ h
    have hsorted : ((metricRows g dim).insertionSort metricRowLe).Pairwise metricRowLe :=
      List.sorted_insertionSort metricRowLe (metricRows g dim)
    have hp : l.Pairwise (fun m1 m2 : ScoreMetric => m1.name ≤ m2.name) := by
      refine pairwise_of_forall2 ?_ hf hsorted
      intro row m row2 m2 hR hR2 hle
      have hname := metricOfRow_ok_name row m hR
      have hname2 := metricOfRow_ok_name row2 m2 hR2
      simp only [metricRowLe, hname, hname2, termSortKey] at hle
      exact hle
    rw [List.Sorted, List.pairwise_map]
    exact hp
  · intro g l h
    simp only [AssessmentGraph.distributions] at h
    cases hds : (typeQuads g distributionAssessmentClassIri).mapM namedQuadSubject with
    | error e => rw [hds] at h; simp [Bind.bind, Except.bind] at h
    | ok subjects =>
      rw [hds] at h
      simp only [Bind.bind, Except.bind] at h
      have hf1 := mapM_ok_forall2 _ _ _ hds
      have hf2 := mapM_ok_forall2 _ _ _ h
      have e1 : (typeQuads g distributionAssessmentClassIri).map Triple.subj =
          subjects.map Term.iri := by
        refine forall2_map_eq _ _ ?_ hf1
        intro t s hR
        simp only [namedQuadSubject] at hR
        cases ht : t.subj with
        | iri s2 => rw [ht] at hR; simp only [Except.ok.injEq] at hR; rw [hR]
        | blank n => rw [ht] at hR; cases hR
        | lit v dt => rw [ht] at hR; cases hR
      have e2 : subjects.map Term.iri = (l.map AssessmentNode.assessment).map Term.iri := by
        have : subjects.map (fun s => Term.iri s) =
            l.map (fun node => Term.iri node.assessment) := by
          refine forall2_map_eq _ _ ?_ hf2
          intro a node hR
          simp only [AssessmentGraph.nodeOf] at hR
          cases hres : AssessmentGraph.assessmentResource g a with
          | error e => rw [hres] at hR; cases hR
          | ok r =>
            rw [hres] at hR
            simp only [Except.ok.injEq] at hR
            rw [← hR]
        rw [List.map_map]
        exact this
      rw [e1, e2]

/-- C7 witness: on the concrete store above, the returned distribution list
preserves the iteration order of the type triples. -/
theorem claim_C7_witness :
    (([AssessmentNode.mk "https://distribution.assessment.b" "https://distribution.b",
        AssessmentNode.mk "https://distribution.assessment.a" "https://distribution.a"].map
        AssessmentNode.assessment).map Term.iri) =
      (typeQuads unsortedDistributionsGraph distributionAssessmentClassIri).map Triple.subj :=
  claim_C7.2.2 unsortedDistributionsGraph
    [AssessmentNode.mk "https://distribution.assessment.b" "https://distribution.b",
      AssessmentNode.mk "https://distribution.assessment.a" "https://distribution.a"] rfl

/-! ### Claim C9: failures of measurement parsing -/

theorem tryFrom_error_iff (v dt : String) :
    (∃ e, MeasurementValue.tryFrom v dt = .error e) ↔
      dt = xsdIntegerIri ∧ rustParseI64 v = none := by
  have hsi : xsdStringIri ≠ xsdIntegerIri := by decide
  have hbi : xsdBooleanIri ≠ xsdIntegerIri := by decide
  unfold MeasurementValue.tryFrom
  by_cases h1 : dt = xsdStringIri
  · rw [if_pos h1]
    constructor
    · rintro ⟨e, he⟩
      cases he
    · rintro ⟨hdt, _⟩
      rw [hdt] at h1
      exact absurd h1.symm hsi
  · rw [if_neg h1]
    by_cases h2 : dt = xsdBooleanIri
    · rw [if_pos h2]
      constructor
      · rintro ⟨e, he⟩
        cases he
      · rintro ⟨hdt, _⟩
        rw [hdt] at h2
        exact absurd h2.symm hbi
    · rw [if_neg h2]
      by_cases h3 : dt = xsdIntegerIri
      · rw [if_pos h3]
        cases hp : rustParseI64 v with
        | some i =>
          constructor
          · rintro ⟨e, he⟩
            cases he
          · rintro ⟨_, hnone⟩
            simp [hp] at hnone
        | none =>
          constructor
          · intro _
            exact ⟨h3, rfl⟩
          · intro _
            exact ⟨_, rfl⟩
      · rw [if_neg h3]
        constructor
        · rintro ⟨e, he⟩
          cases he
        · rintro ⟨hdt, _⟩
          exact absurd hdt h3

theorem measurementOfRow_error_iff (r : Term × Term × Term)
    (hshape : (∃ s, r.1 = Term.iri s) ∧ (∃ s, r.2.1 = Term.iri s) ∧
      ∃ v dt, r.2.2 = Term.lit v dt) :
    (∃ e, measurementOfRow r = .error e) ↔
      ∃ v, r.2.2 = Term.lit v xsdIntegerIri ∧ rustParseI64 v = none := by
  obtain ⟨⟨node, hnode⟩, ⟨metric, hmetric⟩, v, dt, hval⟩ := hshape
  rcases r with ⟨t1, t2, t3⟩
  simp only at hnode hmetric hval
  subst hnode
  subst hmetric
  subst hval
  simp only [measurementOfRow]
  cases htf : MeasurementValue.tryFrom v dt with
  | ok value =>
    constructor
    · rintro ⟨e, he⟩
      cases he
    · rintro ⟨v2, hv2, hparse⟩
      simp only [Term.lit.injEq] at hv2
      obtain ⟨h5, h6⟩ := hv2
      subst h5
      subst h6
      have := (tryFrom_error_iff v xsdIntegerIri).mpr ⟨rfl, hparse⟩
      obtain ⟨e, he⟩ := this
      rw [he] at htf
      cases htf
  | error e =>
    constructor
    · intro _
      have := (tryFrom_error_iff v dt).mp ⟨e, htf⟩
      exact ⟨v, by rw [this.1], this.2⟩
    · intro _
      exact ⟨e, rfl⟩

/-- C9 counterexample: a boolean-typed value literal whose lexical form is not a
boolean does not make `measurements()` fail; it parses as `false`. -/
theorem claim_C9_counterexample :
    MeasurementValue.tryFrom "banana" xsdBooleanIri = .ok (.bool false) ∧
    AssessmentGraph.qualityMeasurements badBooleanGraph =
      .ok [(("https://dataset.assessment.foo", mqaIri "formatAvailability"),
        MeasurementValue.bool false)] := by
  constructor
  · rfl
  · rfl

/-- C9 amended: on a graph whose measurement rows bind named nodes, named
metrics and literal values, `quality_measurements` fails iff some row's value
literal has datatype xsd:integer and its lexical form does not parse as an i64.
Boolean-typed literals never fail: any lexical form other than `true` parses as
`false`. String-typed and unknown-typed literals never fail either. -/
theorem claim_C9 (g : RdfGraph)
    (hrows : ∀ r ∈ qualityMeasurementRows g,
      (∃ s, r.1 = Term.iri s) ∧ (∃ s, r.2.1 = Term.iri s) ∧
        ∃ v dt, r.2.2 = Term.lit v dt) :
    (∃ e, AssessmentGraph.qualityMeasurements g = .error e) ↔
      ∃ r ∈ qualityMeasurementRows g, ∃ v,
        r.2.2 = Term.lit v xsdIntegerIri ∧ rustParseI64 v = none := by
  unfold AssessmentGraph.qualityMeasurements
  rw [mapM_error_iff]
  constructor
  · rintro ⟨r, hr, he⟩
    exact ⟨r, hr, (measurementOfRow_error_iff r (hrows r hr)).mp he⟩
  · rintro ⟨r, hr, hv⟩
    exact ⟨r, hr, (measurementOfRow_error_iff r (hrows r hr)).mpr hv⟩

/-- C9 witness: an integer-typed value literal with lexical form `abc` makes
`quality_measurements` fail. -/
theorem claim_C9_witness :
    ∃ e, AssessmentGraph.qualityMeasurements badIntegerGraph = .error e := by
  have hrows : qualityMeasurementRows badIntegerGraph =
      [(Term.iri "https://dataset.assessment.foo",
        Term.iri (mqaIri "accessUrlStatusCode"), Term.lit "abc" xsdIntegerIri)] := rfl
  refine (claim_C9 badIntegerGraph ?_).mpr ?_
  · intro r hr
    rw [hrows] at hr
    rcases List.mem_singleton.mp hr with rfl
    exact ⟨⟨_, rfl⟩, ⟨_, rfl⟩, "abc", xsdIntegerIri, rfl⟩
  · refine ⟨(Term.iri "https://dataset.assessment.foo",
      Term.iri (mqaIri "accessUrlStatusCode"), Term.lit "abc" xsdIntegerIri), ?_, "abc", rfl, rfl⟩
    rw [hrows]
    exact List.mem_singleton.mpr rfl

/-! ### Claim C8: max scores in the emitted JSON -/

theorem nodeScoreStep_sums (dims : List JsonDimensionScore) (row : SolutionRow) :
    ((nodeScoreStep dims row).map (fun d => d.max_score)).sum =
      (dims.map (fun d => d.max_score)).sum + row.max_score ∧
    ((nodeScoreStep dims row).map (fun d => d.score)).sum =
      (dims.map (fun d => d.score)).sum + row.score.getD 0 := by
  rcases List.eq_nil_or_concat dims with rfl | ⟨front, last, rfl⟩
  · simp [nodeScoreStep]
  · rw [List.concat_eq_append]
    have hlast : (front ++ [last]).getLast? = some last := by simp
    simp only [nodeScoreStep, hlast]
    by_cases hname : last.name = row.dimension
    · rw [if_pos hname]
      have hdrop : (front ++ [last]).dropLast = front := by simp
      rw [hdrop]
      constructor <;> simp <;> omega
    · rw [if_neg hname]
      constructor <;> simp <;> omega

theorem nodeScore_fold_sums (rows : List SolutionRow) :
    ∀ acc : List JsonDimensionScore,
      ((rows.foldl nodeScoreStep acc).map (fun d => d.max_score)).sum =
        (acc.map (fun d => d.max_score)).sum + (rows.map (fun r => r.max_score)).sum ∧
      ((rows.foldl nodeScoreStep acc).map (fun d => d.score)).sum =
        (acc.map (fun d => d.score)).sum + (rows.map (fun r => r.score.getD 0)).sum := by
  induction rows with
  | nil => intro acc; simp
  | cons row rows ih =>
    intro acc
    simp only [List.foldl_cons, List.map_cons, List.sum_cons]
    have hstep := nodeScoreStep_sums acc row
    have hrec := ih (nodeScoreStep acc row)
    constructor
    · rw [hrec.1, hstep.1]
      omega
    · rw [hrec.2, hstep.2]
      omega

/-- C8 counterexample: with the seed catalog (total 90), a node whose only
measurement is for accessUrlStatusCode reports max_score 50, not the catalog
total; the max score depends on which measurements are present. -/
theorem claim_C8_counterexample :
    testScoreDefinitions.total_score = 90 ∧
    (JsonScore.new "https://dataset.foo"
      (nodeScore [SolutionRow.mk (mqaIri "accessibility") (mqaIri "accessUrlStatusCode")
        (some 50) 50])).max_score = 50 := by
  exact ⟨rfl, rfl⟩

theorem insertAt_map_sum (n : Nat) (a : JsonMetricScore) (l : List JsonMetricScore)
    (f : JsonMetricScore → Nat) :
    ((insertAt n a l).map f).sum = f a + (l.map f).sum := by
  have hsplit : (l.map f).sum = ((l.take n).map f).sum + ((l.drop n).map f).sum := by
    conv_lhs => rw [← List.take_append_drop n l]
    rw [List.map_append, List.sum_append]
  rw [insertAt, List.map_append, List.map_append, List.sum_append, List.sum_append, hsplit]
  simp only [List.map_cons, List.map_nil, List.sum_cons, List.sum_nil]
  omega

theorem insertAt_mem (n : Nat) (a : JsonMetricScore) (l : List JsonMetricScore)
    (m : JsonMetricScore) (h : m ∈ insertAt n a l) : m = a ∨ m ∈ l := by
  rw [insertAt] at h
  rcases List.mem_append.mp h with h1 | h2
  · rcases List.mem_append.mp h1 with h3 | h4
    · exact Or.inr (List.take_subset n l h3)
    · simp only [List.mem_singleton] at h4
      exact Or.inl h4
  · exact Or.inr (List.drop_subset n l h2)

theorem nodeScoreStep_dim_inv (P : SolutionRow → Prop) (dims : List JsonDimensionScore)
    (row : SolutionRow)
    (hsum : ∀ d ∈ dims, d.score = (d.metrics.map (fun m => m.score)).sum ∧
      d.max_score = (d.metrics.map (fun m => m.max_score)).sum)
    (horig : ∀ d ∈ dims, ∀ m ∈ d.metrics, ∃ r, P r ∧ r.dimension = d.name ∧
      r.metric = m.metric ∧ m.score = r.score.getD 0 ∧ m.max_score = r.max_score)
    (hP : P row) :
    (∀ d ∈ nodeScoreStep dims row, d.score = (d.metrics.map (fun m => m.score)).sum ∧
      d.max_score = (d.metrics.map (fun m => m.max_score)).sum) ∧
    (∀ d ∈ nodeScoreStep dims row, ∀ m ∈ d.metrics, ∃ r, P r ∧ r.dimension = d.name ∧
      r.metric = m.metric ∧ m.score = r.score.getD 0 ∧ m.max_score = r.max_score) := by
  rcases List.eq_nil_or_concat dims with rfl | ⟨front, last, rfl⟩
  · constructor
    · intro d hd
      simp only [nodeScoreStep, List.getLast?_nil, List.nil_append, List.mem_singleton] at hd
      subst hd
      constructor <;> simp
    · intro d hd m hm
      simp only [nodeScoreStep, List.getLast?_nil, List.nil_append, List.mem_singleton] at hd
      subst hd
      simp only [List.mem_singleton] at hm
      subst hm
      exact ⟨row, hP, rfl, rfl, rfl, rfl⟩
  · rw [List.concat_eq_append] at hsum horig ⊢
    have hlast : (front ++ [last]).getLast? = some last := by simp
    have hlastmem : last ∈ front ++ [last] := by simp
    by_cases hname : last.name = row.dimension
    · have hstep : nodeScoreStep (front ++ [last]) row =
          front ++ [JsonDimensionScore.mk last.name
            (insertAt (last.metrics.countP (fun m => m.metric < row.metric))
              (JsonMetricScore.mk row.metric (row.score.getD 0) row.score.isSome
                row.max_score)
              last.metrics)
            (last.score + row.score.getD 0) (last.max_score + row.max_score)] := by
        simp only [nodeScoreStep, hlast, if_pos hname]
        rw [List.dropLast_concat]
      rw [hstep]
      constructor
      · intro d hd
        rcases List.mem_append.mp hd with h1 | h2
        · exact hsum d (List.mem_append_left _ h1)
        · simp only [List.mem_singleton] at h2
          subst h2
          obtain ⟨hs, hms⟩ := hsum last hlastmem
          constructor
          · simp only [insertAt_map_sum]
            rw [hs]
            omega
          · simp only [insertAt_map_sum]
            rw [hms]
            omega
      · intro d hd m hm
        rcases List.mem_append.mp hd with h1 | h2
        · exact horig d (List.mem_append_left _ h1) m hm
        · simp only [List.mem_singleton] at h2
          subst h2
          rcases insertAt_mem _ _ _ m hm with hnew | hold
          · subst hnew
            exact ⟨row, hP, hname.symm, rfl, rfl, rfl⟩
          · obtain ⟨r, hr, h1, h2, h3, h4⟩ := horig last hlastmem m hold
            exact ⟨r, hr, h1, h2, h3, h4⟩
    · have hstep : nodeScoreStep (front ++ [last]) row =
          (front ++ [last]) ++ [JsonDimensionScore.mk row.dimension
            [JsonMetricScore.mk row.metric (row.score.getD 0) row.score.isSome
              row.max_score]
            (row.score.getD 0) row.max_score] := by
        simp only [nodeScoreStep, hlast, if_neg hname]
      rw [hstep]
      constructor
      · intro d hd
        rcases List.mem_append.mp hd with h1 | h2
        · exact hsum d h1
        · simp only [List.mem_singleton] at h2
          subst h2
          constructor <;> simp
      · intro d hd m hm
        rcases List.mem_append.mp hd with h1 | h2
        · exact horig d h1 m hm
        · simp only [List.mem_singleton] at h2
          subst h2
          simp only [List.mem_singleton] at hm
          subst hm
          exact ⟨row, hP, rfl, rfl, rfl, rfl⟩

theorem nodeScore_dim_inv (P : SolutionRow → Prop) :
    ∀ (rows : List SolutionRow) (acc : List JsonDimensionScore),
      (∀ r ∈ rows, P r) →
      (∀ d ∈ acc, d.score = (d.metrics.map (fun m => m.score)).sum ∧
        d.max_score = (d.metrics.map (fun m => m.max_score)).sum) →
      (∀ d ∈ acc, ∀ m ∈ d.metrics, ∃ r, P r ∧ r.dimension = d.name ∧
        r.metric = m.metric ∧ m.score = r.score.getD 0 ∧ m.max_score = r.max_score) →
      (∀ d ∈ rows.foldl nodeScoreStep acc,
        d.score = (d.metrics.map (fun m => m.score)).sum ∧
        d.max_score = (d.metrics.map (fun m => m.max_score)).sum) ∧
      (∀ d ∈ rows.foldl nodeScoreStep acc, ∀ m ∈ d.metrics, ∃ r, P r ∧
        r.dimension = d.name ∧ r.metric = m.metric ∧ m.score = r.score.getD 0 ∧
        m.max_score = r.max_score) := by
  intro rows
  induction rows with
  | nil =>
    intro acc hP hsum horig
    exact ⟨hsum, horig⟩
  | cons row rows ih =>
    intro acc hP hsum horig
    simp only [List.foldl_cons]
    have hstep := nodeScoreStep_dim_inv P acc row hsum horig
      (hP row (List.mem_cons_self row rows))
    exact ih (nodeScoreStep acc row) (fun r hr => hP r (List.mem_cons_of_mem row hr))
      hstep.1 hstep.2

/-- C8 amended: in the emitted scores JSON, a node's max_score is the sum of
the catalog trueScores of exactly the metrics measured on that node (one query
row per measurement), and its score is the sum of the row scores; likewise each
dimension entry's score and max_score are the sums over exactly its own metric
entries, every one of which originates from a measurement row of that
dimension; the total equals the catalog total only when every catalog metric
has a measurement on the node. -/
theorem claim_C8 (rows : List SolutionRow) (name : String) :
    (JsonScore.new name (nodeScore rows)).max_score =
      (rows.map (fun r => r.max_score)).sum ∧
    (JsonScore.new name (nodeScore rows)).score =
      (rows.map (fun r => r.score.getD 0)).sum ∧
    (∀ d ∈ nodeScore rows, d.score = (d.metrics.map (fun m => m.score)).sum ∧
      d.max_score = (d.metrics.map (fun m => m.max_score)).sum) ∧
    (∀ d ∈ nodeScore rows, ∀ m ∈ d.metrics, ∃ r ∈ rows, r.dimension = d.name ∧
      r.metric = m.metric ∧ m.score = r.score.getD 0 ∧ m.max_score = r.max_score) := by
  have h := nodeScore_fold_sums rows []
  simp only [List.map_nil, List.sum_nil, Nat.zero_add] at h
  have hinv := nodeScore_dim_inv (fun r => r ∈ rows) rows [] (fun r hr => hr)
    (by intro d hd; cases hd) (by intro d hd; cases hd)
  exact ⟨h.1, h.2, hinv.1, hinv.2⟩

/-- C8 witness: the amended sum rule at a concrete row list. -/
theorem claim_C8_witness :
    (JsonScore.new "https://dataset.foo"
      (nodeScore [SolutionRow.mk (mqaIri "accessibility") (mqaIri "accessUrlStatusCode")
        (some 50) 50])).max_score =
      ([SolutionRow.mk (mqaIri "accessibility") (mqaIri "accessUrlStatusCode")
        (some 50) 50].map (fun r => r.max_score)).sum :=
  (claim_C8 [SolutionRow.mk (mqaIri "accessibility") (mqaIri "accessUrlStatusCode")
    (some 50) 50] "https://dataset.foo").1

/-! ### Claim C1: the best-distribution rule -/

theorem bestStep_fold (l : List Score) :
    ∀ acc : Score, ∃ b, List.foldl bestStep (some acc) l = some b ∧
      b.score = max acc.score ((l.map Score.score).foldr max 0) := by
  induction l with
  | nil =>
    intro acc
    exact ⟨acc, rfl, by simp⟩
  | cons s t ih =>
    intro acc
    simp only [List.foldl_cons, bestStep, List.map_cons, List.foldr_cons]
    by_cases hle : acc.score ≤ s.score
    · rw [if_pos hle]
      obtain ⟨b, hb, hsc⟩ := ih s
      refine ⟨b, hb, ?_⟩
      rw [hsc]
      omega
    · rw [if_neg hle]
      obtain ⟨b, hb, hsc⟩ := ih acc
      refine ⟨b, hb, ?_⟩
      rw [hsc]
      omega

theorem bestScore_eq_max (l : List Score) (h : l ≠ []) :
    ∃ b, bestScore l = some b ∧ b.score = (l.map Score.score).foldr max 0 := by
  cases l with
  | nil => exact absurd rfl h
  | cons s t =>
    simp only [bestScore, List.foldl_cons, bestStep, List.map_cons, List.foldr_cons]
    obtain ⟨b, hb, hsc⟩ := bestStep_fold t s
    refine ⟨b, hb, ?_⟩
    rw [hsc]

theorem distributionScoreOf_ok (defs : ScoreDefinitions) (meas : Measurements)
    (node : AssessmentNode) (s : Score) (h : distributionScoreOf defs meas node = .ok s) :
    s.score = sumDimensions s.dimensions ∧
      nodeDimensionScores defs meas s.assessment = .ok s.dimensions := by
  unfold distributionScoreOf at h
  cases hnd : nodeDimensionScores defs meas node.assessment with
  | error e => rw [hnd] at h; cases h
  | ok dims =>
    rw [hnd] at h
    simp only [Except.ok.injEq] at h
    rw [← h]
    exact ⟨rfl, hnd⟩

/-- C1: when `calculate_score` succeeds, the reported dataset total is the
maximum over distributions of the total of that distribution's score merged
with the dataset's own dimension scores, or the dataset's own direct total when
no distributions exist; the reported per-distribution scores are the unmerged
per-distribution node scores. -/
theorem claim_C1 (g : RdfGraph) (defs : ScoreDefinitions) (ds : Score) (dists : List Score)
    (h : calculateScore g defs = .ok (ds, dists)) :
    ∃ meas dsNode ddims,
      AssessmentGraph.qualityMeasurements g = .ok meas ∧
      AssessmentGraph.dataset g = .ok dsNode ∧
      nodeDimensionScores defs meas dsNode.assessment = .ok ddims ∧
      (dists = [] → ds.score = sumDimensions ddims) ∧
      (dists ≠ [] → ds.score =
        ((dists.map (fun s => sumDimensions (mergeDimensionScores s.dimensions ddims))).foldr
          max 0)) ∧
      ∀ s ∈ dists, s.score = sumDimensions s.dimensions ∧
        nodeDimensionScores defs meas s.assessment = .ok s.dimensions := by
  unfold calculateScore at h
  split at h
  · cases h
  next meas h1 =>
  split at h
  · cases h
  next dsNode h2 =>
  split at h
  · cases h
  next ddims h3 =>
  split at h
  · cases h
  next distNodes h4 =>
  split at h
  · cases h
  next dscores h5 =>
  refine ⟨meas, dsNode, ddims, h1, h2, h3, ?_⟩
  have hforall := mapM_ok_forall2 _ _ _ h5
  have hdist : ∀ s ∈ dscores, s.score = sumDimensions s.dimensions ∧
      nodeDimensionScores defs meas s.assessment = .ok s.dimensions := by
    intro s hs
    obtain ⟨node, _, hR⟩ := forall2_mem_right hforall s hs
    exact distributionScoreOf_ok defs meas node s hR
  have hmapscores : (dscores.map fun s =>
      Score.mk s.assessment s.resource (mergeDimensionScores s.dimensions ddims)
        (sumDimensions (mergeDimensionScores s.dimensions ddims))).map Score.score =
      dscores.map (fun s => sumDimensions (mergeDimensionScores s.dimensions ddims)) := by
    rw [List.map_map]
    rfl
  split at h
  · next best h6 =>
    simp only [Except.ok.injEq, Prod.mk.injEq] at h
    obtain ⟨hds, hdists⟩ := h
    subst hdists
    have hne2 : (dscores.map fun s =>
        Score.mk s.assessment s.resource (mergeDimensionScores s.dimensions ddims)
          (sumDimensions (mergeDimensionScores s.dimensions ddims))) ≠ [] := by
      intro hc
      rw [hc] at h6
      cases h6
    have hnonempty : dscores ≠ [] := by
      intro hc
      subst hc
      simp at hne2
    obtain ⟨b, hb, hsc⟩ := bestScore_eq_max _ hne2
    rw [h6] at hb
    have hbb : b = best := by
      injection hb with hv
      exact hv.symm
    subst hbb
    rw [hmapscores] at hsc
    refine ⟨fun hc => absurd hc hnonempty, fun _ => ?_, hdist⟩
    rw [← hds]
    exact hsc
  · next h6 =>
    simp only [Except.ok.injEq, Prod.mk.injEq] at h
    obtain ⟨hds, hdists⟩ := h
    have hempty : dscores = [] := by
      by_contra hne
      have hne2 : (dscores.map fun s =>
          Score.mk s.assessment s.resource (mergeDimensionScores s.dimensions ddims)
            (sumDimensions (mergeDimensionScores s.dimensions ddims))) ≠ [] := by
        intro hc
        exact hne (List.map_eq_nil_iff.mp hc)
      obtain ⟨b, hb, _⟩ := bestScore_eq_max _ hne2
      rw [h6] at hb
      cases hb
    subst hempty
    subst hdists
    refine ⟨fun _ => ?_, fun hc => absurd rfl hc, by intro s hs; cases hs⟩
    rw [← hds]

/-- C1 witness: `calculate_score` on the test measurement graph with the seed
catalog reports dataset total 70 (the best merged distribution). -/
theorem claim_C1_witness :
    ∃ meas dsNode ddims,
      AssessmentGraph.qualityMeasurements testMeasurementGraph = .ok meas ∧
      AssessmentGraph.dataset testMeasurementGraph = .ok dsNode ∧
      nodeDimensionScores testScoreDefinitions meas dsNode.assessment = .ok ddims ∧
      ([testDistributionScoreA, testDistributionScoreB] = ([] : List Score) →
        testDatasetScore.score = sumDimensions ddims) ∧
      ([testDistributionScoreA, testDistributionScoreB] ≠ ([] : List Score) →
        testDatasetScore.score =
          (([testDistributionScoreA, testDistributionScoreB].map
            (fun s => sumDimensions (mergeDimensionScores s.dimensions ddims))).foldr max 0)) ∧
      ∀ s ∈ [testDistributionScoreA, testDistributionScoreB],
        s.score = sumDimensions s.dimensions ∧
        nodeDimensionScores testScoreDefinitions meas s.assessment = .ok s.dimensions :=
  claim_C1 testMeasurementGraph testScoreDefinitions testDatasetScore
    [testDistributionScoreA, testDistributionScoreB] rfl

/-! ### Timestamp rendering and parsing lemmas -/

theorem digitChar_isDigit (d : Nat) (h : d < 10) : (digitChar d).isDigit = true := by
  interval_cases d <;> decide

theorem digitChar_val (d : Nat) (h : d < 10) : (digitChar d).toNat - 48 = d := by
  interval_cases d <;> decide

theorem natCharsAux_digits : ∀ (fuel n : Nat), ∀ c ∈ natCharsAux fuel n, c.isDigit = true := by
  intro fuel
  induction fuel with
  | zero =>
    intro n c hc
    cases n with
    | zero => cases hc
    | succ m => cases hc
  | succ f ih =>
    intro n c hc
    cases n with
    | zero => cases hc
    | succ m =>
      rw [natCharsAux] at hc
      rcases List.mem_append.mp hc with h1 | h2
      · exact ih _ c h1
      · have : c = digitChar ((m + 1) % 10) := by simpa using h2
        subst this
        exact digitChar_isDigit _ (Nat.mod_lt _ (by norm_num))

theorem natCharsAux_val : ∀ (fuel n : Nat), n ≤ fuel → ∀ a : Nat,
    (natCharsAux fuel n).foldl (fun a c => a * 10 + (c.toNat - 48)) a =
      a * 10 ^ (natCharsAux fuel n).length + n := by
  intro fuel
  induction fuel with
  | zero =>
    intro n hn a
    interval_cases n
    simp [natCharsAux]
  | succ f ih =>
    intro n hn a
    cases n with
    | zero => simp [natCharsAux]
    | succ m =>
      rw [natCharsAux]
      have hle : (m + 1) / 10 ≤ f := by omega
      rw [List.foldl_append, List.length_append]
      rw [ih _ hle a]
      simp only [List.foldl_cons, List.foldl_nil, List.length_cons, List.length_nil]
      rw [digitChar_val _ (Nat.mod_lt _ (by norm_num))]
      have h10 : (m + 1) / 10 * 10 + (m + 1) % 10 = m + 1 := by omega
      ring_nf
      omega

theorem natCharsAux_length_le : ∀ (fuel n k : Nat), n ≤ fuel → n < 10 ^ k →
    (natCharsAux fuel n).length ≤ k := by
  intro fuel
  induction fuel with
  | zero =>
    intro n k hn hk
    interval_cases n
    simp [natCharsAux]
  | succ f ih =>
    intro n k hn hk
    cases n with
    | zero => simp [natCharsAux]
    | succ m =>
      rw [natCharsAux, List.length_append]
      cases k with
      | zero => simp at hk
      | succ j =>
        have hle : (m + 1) / 10 ≤ f := by omega
        have hlt : (m + 1) / 10 < 10 ^ j := by
          have : (m + 1) < 10 ^ (j + 1) := hk
          rw [pow_succ] at this
          omega
        have := ih _ j hle hlt
        simp only [List.length_cons, List.length_nil]
        omega

theorem natChars_digits (n : Nat) : ∀ c ∈ natChars n, c.isDigit = true :=
  natCharsAux_digits n n

theorem natChars_val (n : Nat) :
    (natChars n).foldl (fun a c => a * 10 + (c.toNat - 48)) 0 = n := by
  have := natCharsAux_val n n (Nat.le_refl n) 0
  simpa [natChars] using this

theorem natChars_length_le (n k : Nat) (h : n < 10 ^ k) : (natChars n).length ≤ k :=
  natCharsAux_length_le n n k (Nat.le_refl n) h

theorem padChars_digits (w n : Nat) : ∀ c ∈ padChars w n, c.isDigit = true := by
  intro c hc
  rcases List.mem_append.mp hc with h1 | h2
  · have : c = '0' := List.eq_of_mem_replicate h1
    subst this
    decide
  · exact natChars_digits n c h2

theorem padChars_ne_nil (w n : Nat) (hw : 1 ≤ w) : padChars w n ≠ [] := by
  intro hc
  have := congrArg List.length hc
  simp only [padChars, List.length_append, List.length_replicate, List.length_nil] at this
  omega

theorem foldl_replicate_zeros (k : Nat) :
    (List.replicate k '0').foldl (fun a c => a * 10 + (c.toNat - 48)) 0 = 0 := by
  induction k with
  | zero => rfl
  | succ j ih => simpa [List.replicate_succ] using ih

theorem padChars_val (w n : Nat) :
    (padChars w n).foldl (fun a c => a * 10 + (c.toNat - 48)) 0 = n := by
  rw [padChars, List.foldl_append, foldl_replicate_zeros, natChars_val]

theorem takeWhile_append_cons {p : Char → Bool} :
    ∀ (l1 : List Char), (∀ x ∈ l1, p x = true) → ∀ (c : Char), p c = false →
      ∀ (l2 : List Char),
    (l1 ++ c :: l2).takeWhile p = l1 ∧ (l1 ++ c :: l2).dropWhile p = c :: l2 := by
  intro l1
  induction l1 with
  | nil =>
    intro _ c hc l2
    simp [List.takeWhile, List.dropWhile, hc]
  | cons x t ih =>
    intro hall c hc l2
    have hx : p x = true := hall x (List.mem_cons_self x t)
    have ht := ih (fun y hy => hall y (List.mem_cons_of_mem x hy)) c hc l2
    simp only [List.cons_append, List.takeWhile_cons, List.dropWhile_cons, hx]
    exact ⟨by simp [ht.1], by simpa using ht.2⟩

theorem parseNumField_pad (w n : Nat) (c : Char) (rest : List Char)
    (hw : 1 ≤ w) (hc : c.isDigit = false) :
    parseNumField (padChars w n ++ c :: rest) = some (n, c :: rest) := by
  obtain ⟨h1, h2⟩ := takeWhile_append_cons (padChars w n) (padChars_digits w n) c hc rest
  rw [parseNumField]
  simp only [h1, h2]
  rw [if_neg (padChars_ne_nil w n hw), padChars_val]

theorem parseNumSep_pad (sep : Char) (w n : Nat) (rest : List Char)
    (hw : 1 ≤ w) (hsep : sep.isDigit = false) :
    parseNumSep sep (padChars w n ++ sep :: rest) = some (n, rest) := by
  rw [parseNumSep, parseNumField_pad w n sep rest hw hsep]
  simp [expectChar]

set_option maxHeartbeats 1000000 in
theorem yoe_c0 (doe : Nat) (h2 : doe < 36524) :
    365 * ((doe - doe / 1460 + doe / 36524 - doe / 146096) / 365) +
      ((doe - doe / 1460 + doe / 36524 - doe / 146096) / 365) / 4 -
      ((doe - doe / 1460 + doe / 36524 - doe / 146096) / 365) / 100 ≤ doe ∧
    doe - (365 * ((doe - doe / 1460 + doe / 36524 - doe / 146096) / 365) +
      ((doe - doe / 1460 + doe / 36524 - doe / 146096) / 365) / 4 -
      ((doe - doe / 1460 + doe / 36524 - doe / 146096) / 365) / 100) ≤ 365 ∧
    (doe - doe / 1460 + doe / 36524 - doe / 146096) / 365 ≤ 399 := by
  have h36 : doe / 36524 = 0 := by omega
  have h146 : doe / 146096 = 0 := by omega
  rw [h36, h146]
  generalize he : doe / 1460 = e
  have hb : e ≤ 25 := by omega
  interval_cases e <;> omega

set_option maxHeartbeats 1000000 in
theorem yoe_c1 (doe : Nat) (h1 : 36524 ≤ doe) (h2 : doe < 73048) :
    365 * ((doe - doe / 1460 + doe / 36524 - doe / 146096) / 365) +
      ((doe - doe / 1460 + doe / 36524 - doe / 146096) / 365) / 4 -
      ((doe - doe / 1460 + doe / 36524 - doe / 146096) / 365) / 100 ≤ doe ∧
    doe - (365 * ((doe - doe / 1460 + doe / 36524 - doe / 146096) / 365) +
      ((doe - doe / 1460 + doe / 36524 - doe / 146096) / 365) / 4 -
      ((doe - doe / 1460 + doe / 36524 - doe / 146096) / 365) / 100) ≤ 365 ∧
    (doe - doe / 1460 + doe / 36524 - doe / 146096) / 365 ≤ 399 := by
  have h36 : doe / 36524 = 1 := by omega
  have h146 : doe / 146096 = 0 := by omega
  rw [h36, h146]
  generalize he : doe / 1460 = e
  have hb1 : 25 ≤ e := by omega
  have hb2 : e ≤ 50 := by omega
  interval_cases e <;> omega

set_option maxHeartbeats 1000000 in
theorem yoe_c2 (doe : Nat) (h1 : 73048 ≤ doe) (h2 : doe < 109572) :
    365 * ((doe - doe / 1460 + doe / 36524 - doe / 146096) / 365) +
      ((doe - doe / 1460 + doe / 36524 - doe / 146096) / 365) / 4 -
      ((doe - doe / 1460 + doe / 36524 - doe / 146096) / 365) / 100 ≤ doe ∧
    doe - (365 * ((doe - doe / 1460 + doe / 36524 - doe / 146096) / 365) +
      ((doe - doe / 1460 + doe / 36524 - doe / 146096) / 365) / 4 -
      ((doe - doe / 1460 + doe / 36524 - doe / 146096) / 365) / 100) ≤ 365 ∧
    (doe - doe / 1460 + doe / 36524 - doe / 146096) / 365 ≤ 399 := by
  have h36 : doe / 36524 = 2 := by omega
  have h146 : doe / 146096 = 0 := by omega
  rw [h36, h146]
  generalize he : doe / 1460 = e
  have hb1 : 50 ≤ e := by omega
  have hb2 : e ≤ 75 := by omega
  interval_cases e <;> omega

set_option maxHeartbeats 1000000 in
theorem yoe_c3 (doe : Nat) (h1 : 109572 ≤ doe) (h2 : doe < 146096) :
    365 * ((doe - doe / 1460 + doe / 36524 - doe / 146096) / 365) +
      ((doe - doe / 1460 + doe / 36524 - doe / 146096) / 365) / 4 -
      ((doe - doe / 1460 + doe / 36524 - doe / 146096) / 365) / 100 ≤ doe ∧
    doe - (365 * ((doe - doe / 1460 + doe / 36524 - doe / 146096) / 365) +
      ((doe - doe / 1460 + doe / 36524 - doe / 146096) / 365) / 4 -
      ((doe - doe / 1460 + doe / 36524 - doe / 146096) / 365) / 100) ≤ 365 ∧
    (doe - doe / 1460 + doe / 36524 - doe / 146096) / 365 ≤ 399 := by
  have h36 : doe / 36524 = 3 := by omega
  have h146 : doe / 146096 = 0 := by omega
  rw [h36, h146]
  generalize he : doe / 1460 = e
  have hb1 : 75 ≤ e := by omega
  have hb2 : e ≤ 100 := by omega
  interval_cases e <;> omega

theorem yoe_bounds (doe : Nat) (h : doe < 146097) :
    365 * ((doe - doe / 1460 + doe / 36524 - doe / 146096) / 365) +
      ((doe - doe / 1460 + doe / 36524 - doe / 146096) / 365) / 4 -
      ((doe - doe / 1460 + doe / 36524 - doe / 146096) / 365) / 100 ≤ doe ∧
    doe - (365 * ((doe - doe / 1460 + doe / 36524 - doe / 146096) / 365) +
      ((doe - doe / 1460 + doe / 36524 - doe / 146096) / 365) / 4 -
      ((doe - doe / 1460 + doe / 36524 - doe / 146096) / 365) / 100) ≤ 365 ∧
    (doe - doe / 1460 + doe / 36524 - doe / 146096) / 365 ≤ 399 := by
  rcases Nat.lt_or_ge doe 36524 with h0 | h1
  · exact yoe_c0 doe h0
  rcases Nat.lt_or_ge doe 73048 with h0 | h2
  · exact yoe_c1 doe h1 h0
  rcases Nat.lt_or_ge doe 109572 with h0 | h3
  · exact yoe_c2 doe h2 h0
  rcases Nat.lt_or_ge doe 146096 with h0 | h4
  · exact yoe_c3 doe h3 h0
  have : doe = 146096 := by omega
  subst this
  omega

theorem daysFromCivil_civilFromDays (days : Nat) :
    daysFromCivil (civilFromDays days).1 (civilFromDays days).2.1
      (civilFromDays days).2.2 = days := by
  rw [civilFromDays]
  have hdoe : (days + 719468) % 146097 < 146097 := Nat.mod_lt _ (by norm_num)
  have hz : (days + 719468) / 146097 * 146097 + (days + 719468) % 146097 =
      days + 719468 := by omega
  generalize hE : (days + 719468) / 146097 = era at hz
  generalize hD : (days + 719468) % 146097 = doe at hdoe hz
  obtain ⟨hb1, hb2, hb3⟩ := yoe_bounds doe hdoe
  generalize hY : (doe - doe / 1460 + doe / 36524 - doe / 146096) / 365 = yoe
      at hb1 hb2 hb3
  simp only []
  have hdoy : doe - (365 * yoe + yoe / 4 - yoe / 100) ≤ 365 := hb2
  generalize hDoy : doe - (365 * yoe + yoe / 4 - yoe / 100) = doy at hdoy
  have hmp : (5 * doy + 2) / 153 ≤ 11 := by omega
  generalize hMp : (5 * doy + 2) / 153 = mp at hmp
  have hd5 : (153 * mp + 2) / 5 ≤ doy := by omega
  by_cases hlt : mp < 10
  · rw [if_pos hlt]
    have hm3 : ¬(mp + 3 ≤ 2) := by omega
    rw [if_neg hm3]
    rw [daysFromCivil]
    rw [if_neg hm3]
    rw [if_pos (show 2 < mp + 3 by omega)]
    have hy400 : (yoe + era * 400) / 400 = era := by omega
    have hy400m : (yoe + era * 400) % 400 = yoe := by omega
    rw [hy400, hy400m]
    omega
  · rw [if_neg hlt]
    have hm2 : mp - 9 ≤ 2 := by omega
    rw [if_pos hm2]
    rw [daysFromCivil]
    rw [if_pos hm2]
    rw [if_neg (show ¬2 < mp - 9 by omega)]
    have hy1 : yoe + era * 400 + 1 - 1 = yoe + era * 400 := by omega
    rw [hy1]
    have hy400 : (yoe + era * 400) / 400 = era := by omega
    have hy400m : (yoe + era * 400) % 400 = yoe := by omega
    rw [hy400, hy400m]
    omega

theorem parseFraction_space (rest : List Char) :
    parseFraction (' ' :: rest) = some (0, ' ' :: rest) := rfl

theorem padChars_length_of_le (w n : Nat) (h : (natChars n).length ≤ w) :
    (padChars w n).length = w := by
  simp only [padChars, List.length_append, List.length_replicate]
  omega

theorem parseFraction_pad (ms : Nat) (hms : ms < 1000) (rest : List Char) :
    parseFraction ('.' :: (padChars 3 ms ++ ' ' :: rest)) = some (ms, ' ' :: rest) := by
  have hlen : (natChars ms).length ≤ 3 := natChars_length_le ms 3 (by omega)
  obtain ⟨h1, h2⟩ := takeWhile_append_cons (padChars 3 ms) (padChars_digits 3 ms) ' '
    (by decide) rest
  rw [parseFraction]
  simp only [h1, padChars_length_of_le 3 ms hlen]
  rw [if_neg (by omega)]
  rw [parseNumField_pad 3 ms ' ' rest (by omega) (by decide)]
  show some (ms * 10 ^ (9 - 3) / 1000000, ' ' :: rest) = some (ms, ' ' :: rest)
  norm_num

theorem renderParts_toList_none (y mo d h mi sec : Nat) :
    (renderParts (DateTimeParts.mk y mo d h mi sec none)).toList =
      padChars 4 y ++ '-' :: (padChars 2 mo ++ '-' :: (padChars 2 d ++ ' ' ::
        (padChars 2 h ++ ':' :: (padChars 2 mi ++ ':' ::
        (padChars 2 sec ++ ' ' :: ['+', '0', '0', '0', '0']))))) := by
  simp [renderParts, String.toList, List.cons_append, List.append_assoc]

theorem renderParts_toList_some (y mo d h mi sec ms : Nat) :
    (renderParts (DateTimeParts.mk y mo d h mi sec (some ms))).toList =
      padChars 4 y ++ '-' :: (padChars 2 mo ++ '-' :: (padChars 2 d ++ ' ' ::
        (padChars 2 h ++ ':' :: (padChars 2 mi ++ ':' ::
        (padChars 2 sec ++ '.' ::
          (padChars 3 ms ++ ' ' :: ['+', '0', '0', '0', '0'])))))) := by
  simp [renderParts, String.toList, List.cons_append, List.append_assoc]

theorem parseNumSep_dash4 (n : Nat) (rest : List Char) :
    parseNumSep '-' (padChars 4 n ++ '-' :: rest) = some (n, rest) :=
  parseNumSep_pad '-' 4 n rest (by norm_num) (by decide)

theorem parseNumSep_dash2 (n : Nat) (rest : List Char) :
    parseNumSep '-' (padChars 2 n ++ '-' :: rest) = some (n, rest) :=
  parseNumSep_pad '-' 2 n rest (by norm_num) (by decide)

theorem parseNumSep_space2 (n : Nat) (rest : List Char) :
    parseNumSep ' ' (padChars 2 n ++ ' ' :: rest) = some (n, rest) :=
  parseNumSep_pad ' ' 2 n rest (by norm_num) (by decide)

theorem parseNumSep_colon2 (n : Nat) (rest : List Char) :
    parseNumSep ':' (padChars 2 n ++ ':' :: rest) = some (n, rest) :=
  parseNumSep_pad ':' 2 n rest (by norm_num) (by decide)

theorem parseNumField_space2 (n : Nat) (rest : List Char) :
    parseNumField (padChars 2 n ++ ' ' :: rest) = some (n, ' ' :: rest) :=
  parseNumField_pad 2 n ' ' rest (by norm_num) (by decide)

theorem parseNumField_dot2 (n : Nat) (rest : List Char) :
    parseNumField (padChars 2 n ++ '.' :: rest) = some (n, '.' :: rest) :=
  parseNumField_pad 2 n '.' rest (by norm_num) (by decide)

theorem parse_renderParts_none (y mo d h mi sec : Nat) :
    parseTimestampString (renderParts (DateTimeParts.mk y mo d h mi sec none)) =
      some ((daysFromCivil y mo d * 86400 + h * 3600 + mi * 60 + sec : Int) * 1000) := by
  rw [parseTimestampString, renderParts_toList_none]
  simp only [parseNumSep_dash4, parseNumSep_dash2, parseNumSep_space2, parseNumSep_colon2,
    parseNumField_space2, parseFraction_space]
  norm_num

theorem parse_renderParts_some (y mo d h mi sec ms : Nat) (hms : ms < 1000) :
    parseTimestampString (renderParts (DateTimeParts.mk y mo d h mi sec (some ms))) =
      some ((daysFromCivil y mo d * 86400 + h * 3600 + mi * 60 + sec : Int) * 1000 + ms) := by
  rw [parseTimestampString, renderParts_toList_some]
  simp only [parseNumSep_dash4, parseNumSep_dash2, parseNumSep_space2, parseNumSep_colon2,
    parseNumField_dot2, parseFraction_pad ms hms]

theorem parse_render (t : Nat) :
    parseTimestampString (renderParts (millisToParts t)) = some (t : Int) := by
  have hglue := daysFromCivil_civilFromDays (t / 1000 / 86400)
  rw [millisToParts]
  by_cases hms : t % 1000 = 0
  · rw [if_pos hms]
    rw [parse_renderParts_none, hglue]
    simp only [Option.some.injEq]
    push_cast
    omega
  · rw [if_neg hms]
    rw [parse_renderParts_some _ _ _ _ _ _ _ (Nat.mod_lt _ (by norm_num)), hglue]
    simp only [Option.some.injEq]
    push_cast
    omega

/-! ### Appending a `dct:modified` triple leaves the dataset lookup unchanged -/

theorem filter_append_single_false (g : RdfGraph) (tr : Triple) (p : Triple → Bool)
    (hp : p tr = false) : (g ++ [tr]).filter p = g.filter p := by
  rw [List.filter_append]
  simp [List.filter_cons, hp]

theorem typeQuads_append_modified (g : RdfGraph) (tr : Triple) (cls : String)
    (hpred : tr.pred = dctModifiedIri) :
    typeQuads (g ++ [tr]) cls = typeQuads g cls := by
  rw [typeQuads, typeQuads]
  apply filter_append_single_false
  rw [hpred]
  have hne : (dctModifiedIri == rdfTypeIri) = false := by decide
  simp [hne]

theorem assessmentResource_append_modified (g : RdfGraph) (tr : Triple) (a : String)
    (hpred : tr.pred = dctModifiedIri) :
    AssessmentGraph.assessmentResource (g ++ [tr]) a =
      AssessmentGraph.assessmentResource g a := by
  rw [AssessmentGraph.assessmentResource, AssessmentGraph.assessmentResource]
  rw [filter_append_single_false]
  rw [hpred]
  have hne : (dctModifiedIri == assessmentOfIri) = false := by decide
  simp [hne]

theorem dataset_append_modified (g : RdfGraph) (tr : Triple)
    (hpred : tr.pred = dctModifiedIri) :
    AssessmentGraph.dataset (g ++ [tr]) = AssessmentGraph.dataset g := by
  rw [AssessmentGraph.dataset, AssessmentGraph.dataset]
  rw [typeQuads_append_modified g tr _ hpred]
  have hAR : ∀ a, AssessmentGraph.assessmentResource (g ++ [tr]) a =
      AssessmentGraph.assessmentResource g a :=
    fun a => assessmentResource_append_modified g tr a hpred
  simp only [hAR]

theorem insertModified_append (g : RdfGraph) (t : Int) (node : AssessmentNode)
    (hds : AssessmentGraph.dataset g = .ok node) (ht : 0 ≤ t)
    (hnew : Triple.mk (Term.iri node.assessment) dctModifiedIri
        (Term.lit (renderParts (millisToParts t.toNat)) xsdDateTimeIri) ∉ g) :
    insertModifiedTimestmap g t =
      some (.ok (g ++ [Triple.mk (Term.iri node.assessment) dctModifiedIri
        (Term.lit (renderParts (millisToParts t.toNat)) xsdDateTimeIri)])) := by
  have hcf : chronoFormatTimestamp t = some (renderParts (millisToParts t.toNat)) := by
    rw [chronoFormatTimestamp, if_neg (by omega : ¬t < 0)]
  rw [insertModifiedTimestmap]
  simp only [hcf, hds]
  rw [insertTriple, if_neg hnew]

theorem getModified_of_single_filter (g2 : RdfGraph) (node : AssessmentNode) (s : String)
    (hds2 : AssessmentGraph.dataset g2 = .ok node)
    (hfil : g2.filter (fun tr => tr.subj == Term.iri node.assessment &&
        tr.pred == dctModifiedIri) =
      [Triple.mk (Term.iri node.assessment) dctModifiedIri (Term.lit s xsdDateTimeIri)]) :
    getModifiedTimestmap g2 =
      match parseTimestampString s with
      | some ts => .ok ts
      | none => .error "unable to parse modified timestamp" := by
  rw [getModifiedTimestmap]
  simp only [hds2, hfil]
  rfl

/-- C6: the spec claims `set_modified(ms)` always renders three fractional
digits and replaces any prior `dct:modified` triple. Corrected: on a graph
that already carries a different modified literal the insertion keeps both
triples, and a whole-second timestamp renders with no fractional digits at
all. -/
theorem claim_C6_counterexample :
    (∃ g2, insertModifiedTimestmap priorModifiedGraph 2000 = some (.ok g2) ∧
      (g2.filter fun tr =>
        tr.subj == Term.iri "https://dataset.assessment.foo" &&
        tr.pred == dctModifiedIri).length = 2) ∧
    chronoFormatTimestamp 1000 = some "1970-01-01 00:00:01 +0000" := by
  refine ⟨⟨priorModifiedGraph ++ [Triple.mk (Term.iri "https://dataset.assessment.foo")
    dctModifiedIri (Term.lit "1970-01-01 00:00:02 +0000" xsdDateTimeIri)], ?_, ?_⟩, ?_⟩
  · rfl
  · rfl
  · rfl

/-- C6 (amended): for a nonnegative timestamp on a graph with a dataset
assessment, `insert_modified_timestmap` appends one `dct:modified` triple with
the chrono-rendered `xsd:dateTime` literal, leaving any existing triples in
place, and the rendered fraction is absent exactly for whole-second
timestamps. -/
theorem claim_C6 (g : RdfGraph) (t : Int) (node : AssessmentNode)
    (hds : AssessmentGraph.dataset g = .ok node) (ht : 0 ≤ t)
    (hnew : Triple.mk (Term.iri node.assessment) dctModifiedIri
        (Term.lit (renderParts (millisToParts t.toNat)) xsdDateTimeIri) ∉ g) :
    insertModifiedTimestmap g t =
      some (.ok (g ++ [Triple.mk (Term.iri node.assessment) dctModifiedIri
        (Term.lit (renderParts (millisToParts t.toNat)) xsdDateTimeIri)])) ∧
    ((millisToParts t.toNat).fracMillis = none ↔ t.toNat % 1000 = 0) := by
  refine ⟨insertModified_append g t node hds ht hnew, ?_⟩
  show (if t.toNat % 1000 = 0 then none else some (t.toNat % 1000) : Option Nat) = none ↔
    t.toNat % 1000 = 0
  by_cases hz : t.toNat % 1000 = 0
  · rw [if_pos hz]
    simp [hz]
  · rw [if_neg hz]
    simp [hz]

/-- C6 witness: inserting timestamp 2000 into the prior-modified fixture. -/
theorem claim_C6_witness :
    insertModifiedTimestmap priorModifiedGraph 2000 =
      some (.ok (priorModifiedGraph ++
        [Triple.mk (Term.iri "https://dataset.assessment.foo") dctModifiedIri
          (Term.lit (renderParts (millisToParts (2000 : Int).toNat)) xsdDateTimeIri)])) ∧
    ((millisToParts (2000 : Int).toNat).fracMillis = none ↔
      (2000 : Int).toNat % 1000 = 0) :=
  claim_C6 priorModifiedGraph 2000
    (AssessmentNode.mk "https://dataset.assessment.foo" "https://dataset.foo")
    (by rfl) (by decide) (by decide)

/-- C10: on a graph with a dataset assessment and no prior `dct:modified`
triple for it, `get_modified_timestmap` directly after
`insert_modified_timestmap(t)` returns exactly `t`, for every representable
(nonnegative epoch-millisecond) timestamp. -/
theorem claim_C10 (g : RdfGraph) (t : Int) (node : AssessmentNode)
    (hds : AssessmentGraph.dataset g = .ok node)
    (hnomod : ∀ tr ∈ g, ¬(tr.subj = Term.iri node.assessment ∧ tr.pred = dctModifiedIri))
    (ht : 0 ≤ t) :
    ∃ g2, insertModifiedTimestmap g t = some (.ok g2) ∧
      getModifiedTimestmap g2 = .ok t := by
  have hnew : Triple.mk (Term.iri node.assessment) dctModifiedIri
      (Term.lit (renderParts (millisToParts t.toNat)) xsdDateTimeIri) ∉ g := by
    intro hm
    exact hnomod _ hm ⟨rfl, rfl⟩
  refine ⟨_, insertModified_append g t node hds ht hnew, ?_⟩
  have hds2 : AssessmentGraph.dataset (g ++ [Triple.mk (Term.iri node.assessment)
      dctModifiedIri (Term.lit (renderParts (millisToParts t.toNat)) xsdDateTimeIri)]) =
      .ok node := by
    rw [dataset_append_modified g _ rfl]
    exact hds
  have hfilterg : g.filter (fun tr => tr.subj == Term.iri node.assessment &&
      tr.pred == dctModifiedIri) = [] := by
    rw [List.filter_eq_nil_iff]
    intro tr htr
    have := hnomod tr htr
    simp only [Bool.and_eq_true, beq_iff_eq]
    tauto
  have hfil : (g ++ [Triple.mk (Term.iri node.assessment) dctModifiedIri
      (Term.lit (renderParts (millisToParts t.toNat)) xsdDateTimeIri)]).filter
        (fun tr => tr.subj == Term.iri node.assessment && tr.pred == dctModifiedIri) =
      [Triple.mk (Term.iri node.assessment) dctModifiedIri
        (Term.lit (renderParts (millisToParts t.toNat)) xsdDateTimeIri)] := by
    rw [List.filter_append, hfilterg]
    simp
  rw [getModified_of_single_filter _ node _ hds2 hfil]
  rw [parse_render]
  rw [Int.toNat_of_nonneg ht]

/-- C10 witness: round-trip at the repository test timestamp on the fresh
dataset fixture. -/
theorem claim_C10_witness :
    ∃ g2, insertModifiedTimestmap freshDatasetGraph 1656316912123 = some (.ok g2) ∧
      getModifiedTimestmap g2 = .ok 1656316912123 :=
  claim_C10 freshDatasetGraph 1656316912123
    (AssessmentNode.mk "https://dataset.assessment.foo" "https://dataset.foo")
    (by rfl) (by decide) (by decide)
